import Mathlib

/-!
Verification of the Rat25F scanner/parser pair (`src/Lexer.cpp`,
`src/parser.cpp`).  The C++ code is shallowly embedded: the scanner is a
state machine over a list of characters, the parser a set of mutually
recursive procedures over a token list threaded through an `Except` monad
(the C++ `ParseError` exception), with the interleaved trace/echo output
modelled as a list of output items.  Loops are given explicit fuel; every
call site supplies fuel that provably suffices, so the embedded functions
agree with the unbounded C++ loops.
-/

namespace Rat25F

/-! ## Token model (`Token.h`) -/

inductive TokenType where
  | Keyword | Identifier | Integer | Real | Operator | Separator
  | String | Unknown | EndOfFile
deriving DecidableEq, Repr

structure Token where
  type : TokenType
  lexeme : String
  line : Nat
  col : Nat
deriving DecidableEq, Repr

/-- The (kind, lexeme) view of a token, ignoring positions. -/
def kl (t : Token) : TokenType × String := (t.type, t.lexeme)

/-! ## Character classes used by the scanner (`Lexer.h` / `<cctype>`).
Expressed via code points; the C++ code uses the same ranges
(`isLetter` is written with explicit range comparisons in `Lexer.h`,
`std::isdigit`/`std::isspace` are the C classifications). -/

def isSpaceC (c : Char) : Bool :=
  c.toNat = 32 || c.toNat = 9 || c.toNat = 10 || c.toNat = 11 ||
  c.toNat = 12 || c.toNat = 13

def isDigitC (c : Char) : Bool :=
  48 ≤ c.toNat && c.toNat ≤ 57

def isLetterC (c : Char) : Bool :=
  (65 ≤ c.toNat && c.toNat ≤ 90) || (97 ≤ c.toNat && c.toNat ≤ 122)

def isIdentRestC (c : Char) : Bool :=
  isLetterC c || isDigitC c || c = '$' || c = '_'

/-- C `tolower` restricted to ASCII letters, as used on the keyword lookup. -/
def toLowerC (c : Char) : Char :=
  if 65 ≤ c.toNat && c.toNat ≤ 90 then Char.ofNat (c.toNat + 32) else c

def lowerStr (s : String) : String := String.mk (s.data.map toLowerC)

/-- The scanner's keyword set (`isKeyword` in `Lexer.cpp`), matched
case-insensitively. -/
def kwSet : List String :=
  ["integer", "int", "real", "if", "else", "fi", "while", "return", "get", "put"]

def isKeywordStr (s : String) : Bool := kwSet.contains (lowerStr s)

def isSeparatorC (c : Char) : Bool :=
  c = '(' || c = ')' || c = '\x7b' || c = '\x7d' || c = '[' || c = ']' ||
  c = ',' || c = ';'

def isOperatorStartC (c : Char) : Bool :=
  c = '+' || c = '-' || c = '*' || c = '/' || c = '=' || c = '<' ||
  c = '>' || c = '!' || c = '&' || c = '|'

/-! ## Scanner state (`Lexer.h`): one character of lookahead in `current`,
the not-yet-read characters in `rest`, an end-of-input flag and the 1-based
line / column counters (column reset to 0 at each newline). -/

structure LexState where
  rest : List Char
  current : Char
  eof : Bool
  line : Nat
  col : Nat
deriving DecidableEq, Repr

/-- `Lexer::advance`: read one character (EOF sets the flag; a newline bumps
the line and resets the column). -/
def advance (st : LexState) : LexState :=
  match st.rest with
  | [] => { st with eof := true, current := '\x00' }
  | c :: cs =>
    if c = '\n' then
      { rest := cs, current := c, eof := false, line := st.line + 1, col := 0 }
    else
      { rest := cs, current := c, eof := false, line := st.line, col := st.col + 1 }

/-- `Lexer::peek`: look at the next unread character without consuming it. -/
def peek? (st : LexState) : Option Char := st.rest.head?

def peekIsDigit (st : LexState) : Bool :=
  match peek? st with
  | some c => isDigitC c
  | none => false

/-- Fuel bound for the scanning loops: the characters still reachable. -/
def measF (st : LexState) : Nat := st.rest.length + (if st.eof then 0 else 1)

/-- `Lexer::skipSpace` with explicit fuel. -/
def skipSpaceF : Nat → LexState → LexState
  | 0, st => st
  | n + 1, st =>
    if !st.eof && isSpaceC st.current then skipSpaceF n (advance st) else st

/-- The common shape of the scanner's collecting loops
(`while (!eof && p(current)) { lex.push_back(current); advance(); }`). -/
def collectWhileF (p : Char → Bool) : Nat → LexState → List Char × LexState
  | 0, st => ([], st)
  | n + 1, st =>
    if !st.eof && p st.current then
      let r := collectWhileF p n (advance st)
      (st.current :: r.1, r.2)
    else ([], st)

/-- `Lexer::scanString`: skip the opening quote, take everything up to (not
including) the next quote — or to end of input — then skip the closing quote
if there is one. -/
def scanString (st : LexState) : Token × LexState :=
  let st1 := advance st
  let r := collectWhileF (fun c => !(c = '"')) (measF st1 + 1) st1
  let st3 := if !r.2.eof then advance r.2 else r.2
  (⟨TokenType.String, String.mk r.1, st3.line, st3.col⟩, st3)

/-- `Lexer::scanIdentifierFSM`: a letter then letters/digits/`$`/`_`; the
lexeme decides Keyword vs Identifier via the case-insensitive keyword set. -/
def scanIdentifierFSM (st : LexState) : Token × LexState :=
  let c := st.current
  let st1 := advance st
  let r := collectWhileF isIdentRestC (measF st1 + 1) st1
  let lex := String.mk (c :: r.1)
  if isKeywordStr lex then (⟨TokenType.Keyword, lex, r.2.line, r.2.col⟩, r.2)
  else (⟨TokenType.Identifier, lex, r.2.line, r.2.col⟩, r.2)

/-- `Lexer::scanNumberFSM`: digits, then `.` digits only when the dot is
immediately followed by a digit (a trailing dot is left unconsumed). -/
def scanNumberFSM (st : LexState) : Token × LexState :=
  let r1 := collectWhileF isDigitC (measF st + 1) st
  let st1 := r1.2
  if !st1.eof && st1.current = '.' && peekIsDigit st1 then
    let st2 := advance st1
    let r2 := collectWhileF isDigitC (measF st2 + 1) st2
    (⟨TokenType.Real, String.mk (r1.1 ++ '.' :: r2.1), r2.2.line, r2.2.col⟩, r2.2)
  else
    (⟨TokenType.Integer, String.mk r1.1, st1.line, st1.col⟩, st1)

/-- `Lexer::scanRealStartingWithDot`: `.` then one or more digits. -/
def scanRealStartingWithDot (st : LexState) : Token × LexState :=
  let st1 := advance st
  let r := collectWhileF isDigitC (measF st1 + 1) st1
  (⟨TokenType.Real, String.mk ('.' :: r.1), r.2.line, r.2.col⟩, r.2)

/-- The two-character operator test of `Lexer::scanOpOrSep`. -/
def isTwo (c p : Char) : Bool :=
  (c = '<' && p = '=') || (c = '>' && p = '=') || (c = '=' && p = '=') ||
  (c = '!' && p = '=') || (c = '&' && p = '&') || (c = '|' && p = '|')

/-- The single-character part of `Lexer::scanOpOrSep` (after the two-character
lookahead failed or there was nothing to peek at). -/
def scanOpOrSepSingle (st : LexState) : Token × LexState :=
  if isOperatorStartC st.current &&
      !(st.current = '!' || st.current = '&' || st.current = '|') then
    let c := st.current
    let st1 := advance st
    (⟨TokenType.Operator, String.mk [c], st1.line, st1.col⟩, st1)
  else if isSeparatorC st.current then
    let c := st.current
    let st1 := advance st
    (⟨TokenType.Separator, String.mk [c], st1.line, st1.col⟩, st1)
  else if st.current = '!' || st.current = '&' || st.current = '|' then
    let c := st.current
    let st1 := advance st
    (⟨TokenType.Operator, String.mk [c], st1.line, st1.col⟩, st1)
  else
    let c := st.current
    let st1 := advance st
    (⟨TokenType.Unknown, String.mk [c], st1.line, st1.col⟩, st1)

/-- `Lexer::scanOpOrSep`: multi-character operators first (via `peek`),
then single-character operator / separator / lone `!` `&` `|` / unknown. -/
def scanOpOrSep (st : LexState) : Token × LexState :=
  match peek? st with
  | some p =>
    if isTwo st.current p then
      let c := st.current
      let st2 := advance (advance st)
      (⟨TokenType.Operator, String.mk [c, p], st2.line, st2.col⟩, st2)
    else scanOpOrSepSingle st
  | none => scanOpOrSepSingle st

/-- `Lexer::nextToken`: the dispatcher. -/
def nextToken (st : LexState) : Token × LexState :=
  let st0 := skipSpaceF (measF st + 1) st
  if st0.eof then (⟨TokenType.EndOfFile, "", st0.line, st0.col⟩, st0)
  else if st0.current = '"' then scanString st0
  else if st0.current = '.' && peekIsDigit st0 then scanRealStartingWithDot st0
  else if isLetterC st0.current then scanIdentifierFSM st0
  else if isDigitC st0.current then scanNumberFSM st0
  else if isSeparatorC st0.current || isOperatorStartC st0.current then
    scanOpOrSep st0
  else
    let st1 := advance st0
    (⟨TokenType.Unknown, String.mk [st0.current], st1.line, st1.col⟩, st1)

/-- The `Lexer` constructor: line 1, column 0, then one `advance`. -/
def initState (l : List Char) : LexState :=
  advance { rest := l, current := '\x00', eof := false, line := 1, col := 0 }

/-- Repeated `nextToken` calls until (and including) the first end-of-input
token, with fuel. -/
def lexAllF : Nat → LexState → List Token
  | 0, _ => []
  | n + 1, st =>
    let r := nextToken st
    if r.1.type = TokenType.EndOfFile then [r.1] else r.1 :: lexAllF n r.2

/-- The full token stream of an input, ending with the end-of-input token the
scanner reports at exhaustion (whose line/column are the final counters). -/
def lexAll (s : String) : List Token :=
  lexAllF (s.data.length + 2) (initState s.data)

/-- State after `n` further `nextToken` calls, and the token the next call
returns: used to express behaviour of repeated calls after exhaustion. -/
def lexCalls : LexState → Nat → Token × LexState
  | st, 0 => nextToken st
  | st, n + 1 => lexCalls (nextToken st).2 n

/-! ## Parser data model (`Parser.h`) -/

/-- The grammar-rule tags (`enum class Rule`). -/
inductive Rule where
  | Rat25F | OptFuncDefs | FuncDefs | FuncDefsPrime | Function
  | OptParamList | ParamList | ParamListPrime | Parameter | Qualifier
  | Body | OptDeclList | DeclList | DeclListPrime | Declaration | IDs | IDsPrime
  | StatementList | StatementListPrime | Statement | Compound | Assign | If
  | OptElse | Return | Print | Scan | While
  | Condition | Relop | Expression | ExpressionPrime | Term | TermPrime
  | Factor | Primary | PrimaryPrime
deriving DecidableEq, Repr

/-- `TraceConfig`, with the defaults of `Parser.h` (the `enabled` set is the
allow-set of rule tags; empty means all rules pass the filter). -/
structure TraceConfig where
  master : Bool := true
  hideEpsilon : Bool := true
  hideOpt : Bool := true
  hideScaffolding : Bool := true
  enabled : List Rule :=
    [Rule.Statement, Rule.Assign, Rule.If, Rule.Return, Rule.Print,
     Rule.Scan, Rule.While]
deriving DecidableEq, Repr

/-- `ParserPolicy` with its defaults. -/
structure ParserPolicy where
  echoTokens : Bool := true
  lenientKeywords : Bool := true
  allowStringPrimary : Bool := true
deriving DecidableEq, Repr

/-- One line of the parser's single output stream: a token echo
(`std::cout << "Token: " … ` in `echoToken`) or a production-trace line
(emitted through the sink). -/
inductive Item where
  | tok (t : Token)
  | line (s : String)
deriving DecidableEq, Repr

/-- How an `Item` appears on the output stream. -/
def prettyTokenKind : TokenType → String
  | TokenType.Identifier => "Identifier"
  | TokenType.Keyword => "Keyword"
  | TokenType.Integer => "Integer"
  | TokenType.Real => "Real"
  | TokenType.Operator => "Operator"
  | TokenType.Separator => "Separator"
  | TokenType.String => "String"
  | TokenType.Unknown => "Unknown"
  | TokenType.EndOfFile => "EOF"

def renderItem : Item → String
  | Item.tok t => "Token: " ++ prettyTokenKind t.type ++ " Lexeme: " ++ t.lexeme
  | Item.line s => s

/-- Parser state: the not-yet-consumed tokens (the current lookahead `tok_`
is the head) and the output emitted so far. -/
structure PState where
  toks : List Token
  out : List Item
deriving DecidableEq, Repr

/-- The current lookahead token `tok_`.  The fallback is unreachable when the
token list ends with the scanner's end-of-input token, which the parser never
consumes. -/
def cur (st : PState) : Token := st.toks.headD ⟨TokenType.EndOfFile, "", 1, 0⟩

/-- `Parser::advance` (fetch the next token). -/
def padvance (st : PState) : PState := { st with toks := st.toks.tail }

/-- A parse error (`ParseError`) carrying the composed message and the output
already emitted when it was thrown (in the C++ program those lines were
already printed), or fuel exhaustion (an artifact of the embedding, never
reached from the supplied fuel bounds in the concrete runs below). -/
inductive PErr where
  | err (msg : String) (out : List Item)
  | outOfFuel
deriving DecidableEq, Repr

/-- `Parser::errorHere`: compose the fatal syntax-error message from the
current token. -/
def errorHere (msg : String) (st : PState) : PErr :=
  PErr.err ("Syntax error: " ++ msg ++ " at line " ++ toString (cur st).line ++
    ", col " ++ toString (cur st).col ++ " (near '" ++ (cur st).lexeme ++ "')")
    st.out

/-- `Parser::isKw`: strict keyword match, or — under the lenient policy — a
Keyword or Identifier token with the same lexeme. -/
def isKwP (pol : ParserPolicy) (s : String) (t : Token) : Bool :=
  if !pol.lenientKeywords then
    t.type = TokenType.Keyword && t.lexeme = s
  else if t.type = TokenType.Keyword || t.type = TokenType.Identifier then
    t.lexeme = s
  else false

def isOpT (s : String) (t : Token) : Bool :=
  t.type = TokenType.Operator && t.lexeme = s

def isSepT (s : String) (t : Token) : Bool :=
  t.type = TokenType.Separator && t.lexeme = s

/-- `Parser::echoToken`: echo the current token unless echoing is off or the
token is end-of-input. -/
def echoTok (pol : ParserPolicy) (st : PState) : PState :=
  if pol.echoTokens && !((cur st).type = TokenType.EndOfFile) then
    { st with out := st.out ++ [Item.tok (cur st)] }
  else st

/-- `contains` of `parser.cpp` (substring test on the rendered line). -/
def hasSub (s sub : String) : Bool := decide (sub.data <:+: s.data)

/-- `Parser::prod`: emit one production-trace line, filtered by the master
flag, the allow-set, and the epsilon / Opt / scaffolding hiding flags. -/
def prodSt (r : Rule) (text : String) (cfg : TraceConfig) (st : PState) : PState :=
  if !cfg.master then st
  else if !cfg.enabled.isEmpty && !(cfg.enabled.contains r) then st
  else if cfg.hideEpsilon && hasSub text "ε" then st
  else if cfg.hideOpt && hasSub text "Opt " then st
  else if cfg.hideScaffolding &&
      (hasSub text "Rat25F" || hasSub text "Statement List") then st
  else { st with out := st.out ++ [Item.line text] }

/-! ## `expect*` checks and the non-recursive grammar procedures -/

def expectIdentifier (pol : ParserPolicy) (st : PState) : Except PErr PState :=
  if (cur st).type = TokenType.Identifier then
    Except.ok (padvance (echoTok pol st))
  else Except.error (errorHere "identifier expected" st)

def expectKw (pol : ParserPolicy) (s : String) (st : PState) : Except PErr PState :=
  if isKwP pol s (cur st) then Except.ok (padvance (echoTok pol st))
  else Except.error (errorHere ("'" ++ s ++ "' expected") st)

def expectOp (pol : ParserPolicy) (s : String) (st : PState) : Except PErr PState :=
  if isOpT s (cur st) then Except.ok (padvance (echoTok pol st))
  else Except.error (errorHere ("operator '" ++ s ++ "' expected") st)

def expectSep (pol : ParserPolicy) (s : String) (st : PState) : Except PErr PState :=
  if isSepT s (cur st) then Except.ok (padvance (echoTok pol st))
  else Except.error (errorHere ("separator '" ++ s ++ "' expected") st)

/-- `Parser::skipBannerStrings`: silently (no echo) consume any run of
string tokens. -/
def skipBannerToks : List Token → List Token
  | [] => []
  | t :: ts => if t.type = TokenType.String then skipBannerToks ts else t :: ts

def skipBanner (st : PState) : PState := { st with toks := skipBannerToks st.toks }

/-- `Parser::parseQualifier` (non-recursive): `integer | boolean | real`,
else a syntax error. -/
def parseQualifier (cfg : TraceConfig) (pol : ParserPolicy) (st : PState) :
    Except PErr PState :=
  if isKwP pol "integer" (cur st) || isKwP pol "boolean" (cur st) ||
      isKwP pol "real" (cur st) then
    Except.ok (padvance (echoTok pol
      (prodSt Rule.Qualifier "<Qualifier> -> integer | boolean | real" cfg st)))
  else Except.error (errorHere "qualifier (integer|boolean|real) expected" st)

/-- `Parser::parseRelop` (non-recursive).  Note: unlike every other grammar
procedure it does not go through `prod`; it emits directly to the sink and
only when `Rule::Relop` is a member of the allow-set (so an empty allow-set
suppresses the line). -/
def parseRelop (cfg : TraceConfig) (pol : ParserPolicy) (st : PState) :
    Except PErr PState :=
  if isOpT "==" (cur st) || isOpT "!=" (cur st) || isOpT ">" (cur st) ||
      isOpT "<" (cur st) || isOpT "<=" (cur st) || isOpT ">=" (cur st) then
    let st1 :=
      if cfg.master && cfg.enabled.contains Rule.Relop then
        { st with out := st.out ++ [Item.line ("<Relop> -> " ++ (cur st).lexeme)] }
      else st
    Except.ok (padvance (echoTok pol st1))
  else Except.error (errorHere "relational operator expected" st)

/-! ## The mutually recursive grammar procedures, with fuel.

One constructor per `Parser::parse…` procedure of `parser.cpp`; the single
fueled interpreter keeps the mutual recursion structural. -/

inductive NT where
  | rat25F | optFuncDefs | funcDefs | funcDefsPrime | function
  | optParamList | paramList | paramListPrime | parameter
  | body | optDeclList | declList | declListPrime | declaration
  | ids | idsPrime
  | statementList | statementListPrime | optStatementList | statement
  | compound | assign | ifStmt | optElse | returnStmt | printStmt
  | scanStmt | whileStmt
  | condition | expression | expressionPrime | term | termPrime
  | factor | primary | primaryPrime
deriving DecidableEq, Repr

def parseNT (cfg : TraceConfig) (pol : ParserPolicy) :
    Nat → NT → PState → Except PErr PState
  | 0, _, _ => Except.error PErr.outOfFuel
  | n + 1, f, st =>
    match f with
    | NT.rat25F => do
      let st := prodSt Rule.Rat25F
        "<Rat25F> -> <Opt Function Definitions> <Opt Declaration List> <Statement List>"
        cfg st
      let st := skipBanner st
      let st ← parseNT cfg pol n NT.optFuncDefs st
      let st := skipBanner st
      let st ← parseNT cfg pol n NT.optDeclList st
      let st := skipBanner st
      parseNT cfg pol n NT.statementList st
    | NT.optFuncDefs => do
      let st := skipBanner st
      if isKwP pol "function" (cur st) then
        let st := prodSt Rule.OptFuncDefs
          "<Opt Function Definitions> -> <Function Definitions>" cfg st
        parseNT cfg pol n NT.funcDefs st
      else
        pure (prodSt Rule.OptFuncDefs "<Opt Function Definitions> -> ε" cfg st)
    | NT.funcDefs => do
      let st := prodSt Rule.FuncDefs
        "<Function Definitions> -> <Function> <Function Definitions Prime>" cfg st
      let st ← parseNT cfg pol n NT.function st
      parseNT cfg pol n NT.funcDefsPrime st
    | NT.funcDefsPrime => do
      let st := skipBanner st
      if isKwP pol "function" (cur st) then
        let st := prodSt Rule.FuncDefsPrime
          "<Function Definitions Prime> -> <Function> <Function Definitions Prime>"
          cfg st
        let st ← parseNT cfg pol n NT.function st
        parseNT cfg pol n NT.funcDefsPrime st
      else
        pure (prodSt Rule.FuncDefsPrime "<Function Definitions Prime> -> ε" cfg st)
    | NT.function => do
      let st := prodSt Rule.Function
        "<Function> -> function <Identifier> ( <Opt Parameter List> ) <Opt Declaration List> <Body>"
        cfg st
      let st ← expectKw pol "function" st
      let st ← expectIdentifier pol st
      let st ← expectSep pol "(" st
      let st ← parseNT cfg pol n NT.optParamList st
      let st ← expectSep pol ")" st
      let st ← parseNT cfg pol n NT.optDeclList st
      parseNT cfg pol n NT.body st
    | NT.optParamList => do
      if (cur st).type = TokenType.Identifier then
        let st := prodSt Rule.OptParamList
          "<Opt Parameter List> -> <Parameter List>" cfg st
        parseNT cfg pol n NT.paramList st
      else
        pure (prodSt Rule.OptParamList "<Opt Parameter List> -> ε" cfg st)
    | NT.paramList => do
      let st := prodSt Rule.ParamList
        "<Parameter List> -> <Parameter> <Parameter List Prime>" cfg st
      let st ← parseNT cfg pol n NT.parameter st
      parseNT cfg pol n NT.paramListPrime st
    | NT.paramListPrime => do
      if isSepT "," (cur st) then
        let st := prodSt Rule.ParamListPrime
          "<Parameter List Prime> -> , <Parameter> <Parameter List Prime>" cfg st
        let st ← expectSep pol "," st
        let st ← parseNT cfg pol n NT.parameter st
        parseNT cfg pol n NT.paramListPrime st
      else
        pure (prodSt Rule.ParamListPrime "<Parameter List Prime> -> ε" cfg st)
    | NT.parameter => do
      let st := prodSt Rule.Parameter "<Parameter> -> <IDs> <Qualifier>" cfg st
      let st ← parseNT cfg pol n NT.ids st
      parseQualifier cfg pol st
    | NT.body => do
      let st := prodSt Rule.Body
        "<Body> -> \x7b <Opt Statement List> \x7d" cfg st
      let st ← expectSep pol "\x7b" st
      let st ← parseNT cfg pol n NT.optStatementList st
      expectSep pol "\x7d" st
    | NT.optDeclList => do
      if isKwP pol "integer" (cur st) || isKwP pol "boolean" (cur st) ||
          isKwP pol "real" (cur st) then
        let st := prodSt Rule.OptDeclList
          "<Opt Declaration List> -> <Declaration List>" cfg st
        parseNT cfg pol n NT.declList st
      else
        pure (prodSt Rule.OptDeclList "<Opt Declaration List> -> ε" cfg st)
    | NT.declList => do
      let st := prodSt Rule.DeclList
        "<Declaration List> -> <Declaration> ; <Declaration List Prime>" cfg st
      let st ← parseNT cfg pol n NT.declaration st
      let st ← expectSep pol ";" st
      parseNT cfg pol n NT.declListPrime st
    | NT.declListPrime => do
      if isKwP pol "integer" (cur st) || isKwP pol "boolean" (cur st) ||
          isKwP pol "real" (cur st) then
        let st := prodSt Rule.DeclListPrime
          "<Declaration List Prime> -> <Declaration> ; <Declaration List Prime>"
          cfg st
        let st ← parseNT cfg pol n NT.declaration st
        let st ← expectSep pol ";" st
        parseNT cfg pol n NT.declListPrime st
      else
        pure (prodSt Rule.DeclListPrime "<Declaration List Prime> -> ε" cfg st)
    | NT.declaration => do
      let st := prodSt Rule.Declaration "<Declaration> -> <Qualifier> <IDs>" cfg st
      let st ← parseQualifier cfg pol st
      parseNT cfg pol n NT.ids st
    | NT.ids => do
      let st := prodSt Rule.IDs "<IDs> -> <Identifier> <IDs Prime>" cfg st
      let st ← expectIdentifier pol st
      parseNT cfg pol n NT.idsPrime st
    | NT.idsPrime => do
      if isSepT "," (cur st) then
        let st := prodSt Rule.IDsPrime "<IDs Prime> -> , <IDs>" cfg st
        let st ← expectSep pol "," st
        parseNT cfg pol n NT.ids st
      else
        pure (prodSt Rule.IDsPrime "<IDs Prime> -> ε" cfg st)
    | NT.statementList => do
      let st := skipBanner st
      if (cur st).type = TokenType.EndOfFile || isSepT "\x7d" (cur st) then
        pure (prodSt Rule.StatementList "<Statement List> -> ε" cfg st)
      else if isSepT "\x7b" (cur st) || (cur st).type = TokenType.Identifier ||
          isKwP pol "if" (cur st) || isKwP pol "return" (cur st) ||
          isKwP pol "put" (cur st) || isKwP pol "get" (cur st) ||
          isKwP pol "while" (cur st) then
        let st := prodSt Rule.StatementList
          "<Statement List> -> <Statement> <Statement List Prime>" cfg st
        let st ← parseNT cfg pol n NT.statement st
        parseNT cfg pol n NT.statementListPrime st
      else
        pure (prodSt Rule.StatementList "<Statement List> -> ε" cfg st)
    | NT.statementListPrime => do
      let st := skipBanner st
      if (cur st).type = TokenType.EndOfFile || isSepT "\x7d" (cur st) then
        pure (prodSt Rule.StatementListPrime "<Statement List Prime> -> ε" cfg st)
      else if isSepT "\x7b" (cur st) || (cur st).type = TokenType.Identifier ||
          isKwP pol "if" (cur st) || isKwP pol "return" (cur st) ||
          isKwP pol "put" (cur st) || isKwP pol "get" (cur st) ||
          isKwP pol "while" (cur st) then
        let st := prodSt Rule.StatementListPrime
          "<Statement List Prime> -> <Statement> <Statement List Prime>" cfg st
        let st ← parseNT cfg pol n NT.statement st
        parseNT cfg pol n NT.statementListPrime st
      else
        pure (prodSt Rule.StatementListPrime "<Statement List Prime> -> ε" cfg st)
    | NT.optStatementList => do
      if (cur st).type = TokenType.EndOfFile || isSepT "\x7d" (cur st) then
        pure (prodSt Rule.StatementList "<Statement List> -> ε" cfg st)
      else parseNT cfg pol n NT.statementList st
    | NT.statement => do
      if (cur st).type = TokenType.String then
        let st := padvance st
        pure (prodSt Rule.Statement "<Statement> -> ε" cfg st)
      else if isSepT "\x7b" (cur st) then
        let st := prodSt Rule.Statement "<Statement> -> <Compound>" cfg st
        parseNT cfg pol n NT.compound st
      else if (cur st).type = TokenType.Identifier then
        let st := prodSt Rule.Statement "<Statement> -> <Assign>" cfg st
        parseNT cfg pol n NT.assign st
      else if isKwP pol "if" (cur st) then
        let st := prodSt Rule.Statement "<Statement> -> <If>" cfg st
        parseNT cfg pol n NT.ifStmt st
      else if isKwP pol "return" (cur st) then
        let st := prodSt Rule.Statement "<Statement> -> <Return>" cfg st
        parseNT cfg pol n NT.returnStmt st
      else if isKwP pol "put" (cur st) then
        let st := prodSt Rule.Statement "<Statement> -> <Print>" cfg st
        parseNT cfg pol n NT.printStmt st
      else if isKwP pol "get" (cur st) then
        let st := prodSt Rule.Statement "<Statement> -> <Scan>" cfg st
        parseNT cfg pol n NT.scanStmt st
      else if isKwP pol "while" (cur st) then
        let st := prodSt Rule.Statement "<Statement> -> <While>" cfg st
        parseNT cfg pol n NT.whileStmt st
      else Except.error (errorHere "statement expected" st)
    | NT.compound => do
      let st := prodSt Rule.Compound
        "<Compound> -> \x7b <Statement List> \x7d" cfg st
      let st ← expectSep pol "\x7b" st
      let st ← parseNT cfg pol n NT.statementList st
      expectSep pol "\x7d" st
    | NT.assign => do
      let st := prodSt Rule.Assign
        "<Assign> -> <Identifier> = <Expression> ;" cfg st
      let st ← expectIdentifier pol st
      let st ← expectOp pol "=" st
      let st ← parseNT cfg pol n NT.expression st
      expectSep pol ";" st
    | NT.ifStmt => do
      let st := prodSt Rule.If
        "<If> -> if ( <Condition> ) <Statement> <OptElse> fi" cfg st
      let st ← expectKw pol "if" st
      let st ← expectSep pol "(" st
      let st ← parseNT cfg pol n NT.condition st
      let st ← expectSep pol ")" st
      let st ← parseNT cfg pol n NT.statement st
      let st ← parseNT cfg pol n NT.optElse st
      expectKw pol "fi" st
    | NT.optElse => do
      if isKwP pol "else" (cur st) then
        let st := prodSt Rule.OptElse "<OptElse> -> else <Statement>" cfg st
        let st ← expectKw pol "else" st
        parseNT cfg pol n NT.statement st
      else
        pure (prodSt Rule.OptElse "<OptElse> -> ε" cfg st)
    | NT.returnStmt => do
      let st := prodSt Rule.Return
        "<Return> -> return ; | return <Expression> ;" cfg st
      let st ← expectKw pol "return" st
      if isSepT ";" (cur st) then expectSep pol ";" st
      else do
        let st ← parseNT cfg pol n NT.expression st
        expectSep pol ";" st
    | NT.printStmt => do
      let st := prodSt Rule.Print "<Print> -> put ( <Expression> ) ;" cfg st
      let st ← expectKw pol "put" st
      let st ← expectSep pol "(" st
      let st ← parseNT cfg pol n NT.expression st
      let st ← expectSep pol ")" st
      expectSep pol ";" st
    | NT.scanStmt => do
      let st := prodSt Rule.Scan "<Scan> -> get ( <IDs> ) ;" cfg st
      let st ← expectKw pol "get" st
      let st ← expectSep pol "(" st
      let st ← parseNT cfg pol n NT.ids st
      let st ← expectSep pol ")" st
      expectSep pol ";" st
    | NT.whileStmt => do
      let st := prodSt Rule.While
        "<While> -> while ( <Condition> ) <Statement>" cfg st
      let st ← expectKw pol "while" st
      let st ← expectSep pol "(" st
      let st ← parseNT cfg pol n NT.condition st
      let st ← expectSep pol ")" st
      parseNT cfg pol n NT.statement st
    | NT.condition => do
      let st := prodSt Rule.Condition
        "<Condition> -> <Expression> <Relop> <Expression>" cfg st
      let st ← parseNT cfg pol n NT.expression st
      let st ← parseRelop cfg pol st
      parseNT cfg pol n NT.expression st
    | NT.expression => do
      let st := prodSt Rule.Expression
        "<Expression> -> <Term> <Expression Prime>" cfg st
      let st ← parseNT cfg pol n NT.term st
      parseNT cfg pol n NT.expressionPrime st
    | NT.expressionPrime => do
      if isOpT "+" (cur st) then
        let st := prodSt Rule.ExpressionPrime
          "<Expression Prime> -> + <Term> <Expression Prime>" cfg st
        let st ← expectOp pol "+" st
        let st ← parseNT cfg pol n NT.term st
        parseNT cfg pol n NT.expressionPrime st
      else if isOpT "-" (cur st) then
        let st := prodSt Rule.ExpressionPrime
          "<Expression Prime> -> - <Term> <Expression Prime>" cfg st
        let st ← expectOp pol "-" st
        let st ← parseNT cfg pol n NT.term st
        parseNT cfg pol n NT.expressionPrime st
      else
        pure (prodSt Rule.ExpressionPrime "<Expression Prime> -> ε" cfg st)
    | NT.term => do
      let st := prodSt Rule.Term "<Term> -> <Factor> <Term Prime>" cfg st
      let st ← parseNT cfg pol n NT.factor st
      parseNT cfg pol n NT.termPrime st
    | NT.termPrime => do
      if isOpT "*" (cur st) then
        let st := prodSt Rule.TermPrime
          "<Term Prime> -> * <Factor> <Term Prime>" cfg st
        let st ← expectOp pol "*" st
        let st ← parseNT cfg pol n NT.factor st
        parseNT cfg pol n NT.termPrime st
      else if isOpT "/" (cur st) then
        let st := prodSt Rule.TermPrime
          "<Term Prime> -> / <Factor> <Term Prime>" cfg st
        let st ← expectOp pol "/" st
        let st ← parseNT cfg pol n NT.factor st
        parseNT cfg pol n NT.termPrime st
      else
        pure (prodSt Rule.TermPrime "<Term Prime> -> ε" cfg st)
    | NT.factor => do
      if isOpT "-" (cur st) then
        let st := prodSt Rule.Factor "<Factor> -> - <Primary>" cfg st
        let st ← expectOp pol "-" st
        parseNT cfg pol n NT.primary st
      else
        let st := prodSt Rule.Factor "<Factor> -> <Primary>" cfg st
        parseNT cfg pol n NT.primary st
    | NT.primary => do
      if (cur st).type = TokenType.Identifier then
        let st := prodSt Rule.Primary
          "<Primary> -> <Identifier> <Primary Prime>" cfg st
        let st ← expectIdentifier pol st
        parseNT cfg pol n NT.primaryPrime st
      else if (cur st).type = TokenType.Integer then
        let st := prodSt Rule.Primary "<Primary> -> <Integer>" cfg st
        pure (padvance (echoTok pol st))
      else if (cur st).type = TokenType.Real then
        let st := prodSt Rule.Primary "<Primary> -> <Real>" cfg st
        pure (padvance (echoTok pol st))
      else if isSepT "(" (cur st) then
        let st := prodSt Rule.Primary "<Primary> -> ( <Expression> )" cfg st
        let st ← expectSep pol "(" st
        let st ← parseNT cfg pol n NT.expression st
        expectSep pol ")" st
      else if ((cur st).lexeme = "true" || (cur st).lexeme = "false") &&
          ((cur st).type = TokenType.Identifier ||
            (cur st).type = TokenType.Keyword) then
        let st := prodSt Rule.Primary "<Primary> -> true | false" cfg st
        pure (padvance (echoTok pol st))
      else if pol.allowStringPrimary && (cur st).type = TokenType.String then
        let st := prodSt Rule.Primary "<Primary> -> <String>" cfg st
        pure (padvance (echoTok pol st))
      else Except.error (errorHere "primary expected" st)
    | NT.primaryPrime => do
      if isSepT "(" (cur st) then
        let st := prodSt Rule.PrimaryPrime "<Primary Prime> -> ( <IDs> )" cfg st
        let st ← expectSep pol "(" st
        let st ← parseNT cfg pol n NT.ids st
        expectSep pol ")" st
      else
        pure (prodSt Rule.PrimaryPrime "<Primary Prime> -> ε" cfg st)

/-- The whole pipeline on an input string: scanner feeding parser
(`StartSymbol::Program`), with fresh output. -/
def runProgram (cfg : TraceConfig) (pol : ParserPolicy) (fuel : Nat)
    (s : String) : Except PErr PState :=
  parseNT cfg pol fuel NT.rat25F { toks := lexAll s, out := [] }

/-- The lexeme strings of the echoed tokens of an output stream, in order:
the exact substrings the token echo records. -/
def echoStrings (out : List Item) : List String :=
  out.filterMap fun it =>
    match it with
    | Item.tok t => some t.lexeme
    | Item.line _ => none

instance : DecidableEq (Except PErr PState) := fun a b =>
  match a, b with
  | Except.ok x, Except.ok y =>
    if h : x = y then isTrue (by rw [h]) else isFalse (by simp [h])
  | Except.error x, Except.error y =>
    if h : x = y then isTrue (by rw [h]) else isFalse (by simp [h])
  | Except.ok _, Except.error _ => isFalse (by simp)
  | Except.error _, Except.ok _ => isFalse (by simp)

/-! ## Characterization devices for the scanner proofs.

`pending st` is the sequence of characters the scanner can still read
(the lookahead `current` followed by the unread input); `scanOne` is the
pure list-level description of one `nextToken` step, proved equal to the
state-machine embedding below and used only inside proofs. -/

def pending (st : LexState) : List Char :=
  if st.eof then [] else st.current :: st.rest

def digitHead? (l : List Char) : Bool :=
  match l with
  | [] => false
  | c :: _ => isDigitC c

/-- List-level view of the single-character part of `scanOpOrSep`. -/
def scanOneSingle (c : Char) (r : List Char) : (TokenType × String) × List Char :=
  if isOperatorStartC c && !(c = '!' || c = '&' || c = '|') then
    ((TokenType.Operator, String.mk [c]), r)
  else if isSeparatorC c then
    ((TokenType.Separator, String.mk [c]), r)
  else if c = '!' || c = '&' || c = '|' then
    ((TokenType.Operator, String.mk [c]), r)
  else ((TokenType.Unknown, String.mk [c]), r)

/-- List-level view of one `nextToken` step on non-blank input starting with
`c`, the characters after it being `r`. -/
def scanOneCore (c : Char) (r : List Char) : (TokenType × String) × List Char :=
  if c = '"' then
    ((TokenType.String, String.mk (r.takeWhile (fun x => !(x = '"')))),
      (r.dropWhile (fun x => !(x = '"'))).tail)
  else if c = '.' && digitHead? r then
    ((TokenType.Real, String.mk ('.' :: r.takeWhile isDigitC)),
      r.dropWhile isDigitC)
  else if isLetterC c then
    let lex := String.mk (c :: r.takeWhile isIdentRestC)
    ((if isKeywordStr lex then TokenType.Keyword else TokenType.Identifier, lex),
      r.dropWhile isIdentRestC)
  else if isDigitC c then
    let ds1 := (c :: r).takeWhile isDigitC
    match (c :: r).dropWhile isDigitC with
    | '.' :: r2 =>
      if digitHead? r2 then
        ((TokenType.Real, String.mk (ds1 ++ '.' :: r2.takeWhile isDigitC)),
          r2.dropWhile isDigitC)
      else ((TokenType.Integer, String.mk ds1), '.' :: r2)
    | r1 => ((TokenType.Integer, String.mk ds1), r1)
  else if isSeparatorC c || isOperatorStartC c then
    match r with
    | p :: r2 =>
      if isTwo c p then ((TokenType.Operator, String.mk [c, p]), r2)
      else scanOneSingle c r
    | [] => scanOneSingle c r
  else ((TokenType.Unknown, String.mk [c]), r)

/-- List-level view of one `nextToken` step: the (kind, lexeme) produced and
the characters left over. -/
def scanOne (l : List Char) : (TokenType × String) × List Char :=
  match l.dropWhile isSpaceC with
  | [] => ((TokenType.EndOfFile, ""), [])
  | c :: r => scanOneCore c r

/-- Every (kind, lexeme) pair the scanner can emit, as single-token tables
and shape predicates: used to characterize the possible tokens. -/
def opSepLexemes : List (TokenType × String) :=
  [(TokenType.Operator, "<="), (TokenType.Operator, ">="), (TokenType.Operator, "=="),
   (TokenType.Operator, "!="), (TokenType.Operator, "&&"), (TokenType.Operator, "||"),
   (TokenType.Operator, "+"), (TokenType.Operator, "-"), (TokenType.Operator, "*"),
   (TokenType.Operator, "/"), (TokenType.Operator, "="), (TokenType.Operator, "<"),
   (TokenType.Operator, ">"), (TokenType.Operator, "!"), (TokenType.Operator, "&"),
   (TokenType.Operator, "|"),
   (TokenType.Separator, "("), (TokenType.Separator, ")"), (TokenType.Separator, "\x7b"),
   (TokenType.Separator, "\x7d"), (TokenType.Separator, "["), (TokenType.Separator, "]"),
   (TokenType.Separator, ","), (TokenType.Separator, ";")]

/-- The possible shapes of a (kind, lexeme) pair produced by the scanner. -/
inductive TokShape : TokenType × String → Prop where
  | eof : TokShape (TokenType.EndOfFile, "")
  | str (s : String) : TokShape (TokenType.String, s)
  | dotreal (ds : List Char) (hne : ds ≠ [])
      (hds : ∀ x ∈ ds, isDigitC x = true) :
      TokShape (TokenType.Real, String.mk ('.' :: ds))
  | ident (c : Char) (cs : List Char) (hc : isLetterC c = true)
      (hcs : ∀ x ∈ cs, isIdentRestC x = true) :
      TokShape ((if isKeywordStr (String.mk (c :: cs)) then TokenType.Keyword
        else TokenType.Identifier), String.mk (c :: cs))
  | int (ds : List Char) (hne : ds ≠ [])
      (hds : ∀ x ∈ ds, isDigitC x = true) :
      TokShape (TokenType.Integer, String.mk ds)
  | real (ds1 ds2 : List Char) (h1 : ds1 ≠ []) (h2 : ds2 ≠ [])
      (hd1 : ∀ x ∈ ds1, isDigitC x = true)
      (hd2 : ∀ x ∈ ds2, isDigitC x = true) :
      TokShape (TokenType.Real, String.mk (ds1 ++ '.' :: ds2))
  | opsep (p : TokenType × String) (hp : p ∈ opSepLexemes) : TokShape p
  | unknown (c : Char) (hsp : isSpaceC c = false) (hq : c ≠ '"')
      (hl : isLetterC c = false) (hd : isDigitC c = false)
      (hs : isSeparatorC c = false) (ho : isOperatorStartC c = false) :
      TokShape (TokenType.Unknown, String.mk [c])

/-- List-level view of the whole token stream (kinds and lexemes only). -/
def klStreamF : Nat → List Char → List (TokenType × String)
  | 0, _ => []
  | n + 1, l =>
    let r := scanOne l
    if r.1.1 = TokenType.EndOfFile then [r.1] else r.1 :: klStreamF n r.2

/-! # Theorems

## Scanner-state infrastructure -/

theorem pending_advance (st : LexState) (_h : st.eof = false) :
    pending (advance st) = st.rest := by
  rcases hr : st.rest with _ | ⟨c, cs⟩
  · simp [advance, hr, pending]
  · by_cases hc : c = '\n' <;> simp [advance, hr, pending, hc]

theorem pending_length_le (st : LexState) : (pending st).length ≤ measF st := by
  by_cases h : st.eof <;> simp [measF, pending, h]

theorem pending_eq_nil {st : LexState} : pending st = [] ↔ st.eof = true := by
  by_cases h : st.eof <;> simp [pending, h]

theorem pending_eq_cons {st : LexState} {c : Char} {l : List Char}
    (h : pending st = c :: l) :
    st.eof = false ∧ st.current = c ∧ st.rest = l := by
  by_cases he : st.eof
  · simp [pending, he] at h
  · simp only [pending, he, if_neg, Bool.false_eq_true, if_false,
      List.cons.injEq] at h
    exact ⟨by simpa using he, h.1, h.2⟩

theorem skipSpaceF_pending (fuel : Nat) : ∀ st : LexState,
    (pending st).length < fuel →
    pending (skipSpaceF fuel st) = (pending st).dropWhile isSpaceC := by
  induction fuel with
  | zero => intro st h; omega
  | succ n ih =>
    intro st h
    rcases hp : pending st with _ | ⟨c, r⟩
    · have he := pending_eq_nil.mp hp
      simp [skipSpaceF, he, hp]
    · obtain ⟨he, hc, hr⟩ := pending_eq_cons hp
      by_cases hs : isSpaceC c
      · have hadv : pending (advance st) = r := by rw [pending_advance st he, hr]
        have hlen : (pending (advance st)).length < n := by
          rw [hadv]; rw [hp] at h; simpa using Nat.lt_of_succ_lt_succ h
        have hstep : skipSpaceF (n + 1) st = skipSpaceF n (advance st) := by
          simp [skipSpaceF, he, hc, hs]
        rw [hstep, ih (advance st) hlen, hadv, List.dropWhile_cons_of_pos hs]
      · have hstep : skipSpaceF (n + 1) st = st := by
          simp [skipSpaceF, he, hc, hs]
        rw [hstep, hp, List.dropWhile_cons_of_neg (by simpa using hs)]

theorem collectWhileF_spec (p : Char → Bool) (fuel : Nat) : ∀ st : LexState,
    (pending st).length < fuel →
    (collectWhileF p fuel st).1 = (pending st).takeWhile p ∧
    pending (collectWhileF p fuel st).2 = (pending st).dropWhile p := by
  induction fuel with
  | zero => intro st h; omega
  | succ n ih =>
    intro st h
    rcases hp : pending st with _ | ⟨c, r⟩
    · have he := pending_eq_nil.mp hp
      simp [collectWhileF, he, hp]
    · obtain ⟨he, hc, hr⟩ := pending_eq_cons hp
      by_cases hs : p c
      · have hadv : pending (advance st) = r := by rw [pending_advance st he, hr]
        have hlen : (pending (advance st)).length < n := by
          rw [hadv]; rw [hp] at h; simpa using Nat.lt_of_succ_lt_succ h
        obtain ⟨ih1, ih2⟩ := ih (advance st) hlen
        have hunf : collectWhileF p (n + 1) st =
            (st.current :: (collectWhileF p n (advance st)).1,
              (collectWhileF p n (advance st)).2) := by
          simp [collectWhileF, he, hc, hs]
        rw [hunf]
        constructor
        · show st.current :: (collectWhileF p n (advance st)).1 = _

          rw [hc, ih1, hadv, List.takeWhile_cons_of_pos hs]
        · show pending (collectWhileF p n (advance st)).2 = _
          rw [ih2, hadv, List.dropWhile_cons_of_pos hs]
      · have hunf : collectWhileF p (n + 1) st = ([], st) := by
          simp [collectWhileF, he, hc, hs]
        rw [hunf]
        exact ⟨by rw [List.takeWhile_cons_of_neg (by simpa using hs)],
          by rw [hp, List.dropWhile_cons_of_neg (by simpa using hs)]⟩

theorem pending_maybeAdvance (st : LexState) :
    pending (if !st.eof then advance st else st) = (pending st).tail := by
  by_cases h : st.eof
  · simp [h, pending]
  · have hb : st.eof = false := by simpa using h
    have h1 : (if !st.eof then advance st else st) = advance st := by simp [hb]
    rw [h1, pending_advance st hb]
    simp [pending, hb]

theorem peekIsDigit_eq (st : LexState) : peekIsDigit st = digitHead? st.rest := by
  cases h : st.rest <;> simp [peekIsDigit, peek?, digitHead?, h]

/-! ## One-step characterization of each scanning routine -/

theorem scanString_spec (st : LexState) (he : st.eof = false) :
    (kl (scanString st).1, pending (scanString st).2) =
      ((TokenType.String, String.mk (st.rest.takeWhile (fun x => !(x = '"')))),
        (st.rest.dropWhile (fun x => !(x = '"'))).tail) := by
  have hadv : pending (advance st) = st.rest := pending_advance st he
  obtain ⟨h1, h2⟩ := collectWhileF_spec (fun x => !(x = '"'))
    (measF (advance st) + 1) (advance st)
    (Nat.lt_succ_of_le (pending_length_le _))
  rw [hadv] at h1 h2
  simp only [scanString, kl]
  rw [h1, pending_maybeAdvance, h2]

theorem scanIdentifierFSM_spec (st : LexState) (he : st.eof = false) :
    (kl (scanIdentifierFSM st).1, pending (scanIdentifierFSM st).2) =
      (((if isKeywordStr (String.mk (st.current :: st.rest.takeWhile isIdentRestC))
          then TokenType.Keyword else TokenType.Identifier),
        String.mk (st.current :: st.rest.takeWhile isIdentRestC)),
        st.rest.dropWhile isIdentRestC) := by
  have hadv : pending (advance st) = st.rest := pending_advance st he
  obtain ⟨h1, h2⟩ := collectWhileF_spec isIdentRestC
    (measF (advance st) + 1) (advance st)
    (Nat.lt_succ_of_le (pending_length_le _))
  rw [hadv] at h1 h2
  unfold scanIdentifierFSM
  by_cases hk : isKeywordStr (String.mk (st.current :: st.rest.takeWhile isIdentRestC)) <;>
    simp [kl, h1, h2, hk]

theorem scanRealStartingWithDot_spec (st : LexState) (he : st.eof = false) :
    (kl (scanRealStartingWithDot st).1, pending (scanRealStartingWithDot st).2) =
      ((TokenType.Real, String.mk ('.' :: st.rest.takeWhile isDigitC)),
        st.rest.dropWhile isDigitC) := by
  have hadv : pending (advance st) = st.rest := pending_advance st he
  obtain ⟨h1, h2⟩ := collectWhileF_spec isDigitC
    (measF (advance st) + 1) (advance st)
    (Nat.lt_succ_of_le (pending_length_le _))
  rw [hadv] at h1 h2
  unfold scanRealStartingWithDot
  simp [kl, h1, h2]

theorem scanNumberFSM_spec (st : LexState) :
    (kl (scanNumberFSM st).1, pending (scanNumberFSM st).2) =
      (match (pending st).dropWhile isDigitC with
       | '.' :: r2 =>
         if digitHead? r2 then
           ((TokenType.Real, String.mk ((pending st).takeWhile isDigitC ++
              '.' :: r2.takeWhile isDigitC)), r2.dropWhile isDigitC)
         else ((TokenType.Integer, String.mk ((pending st).takeWhile isDigitC)),
           '.' :: r2)
       | r1 => ((TokenType.Integer, String.mk ((pending st).takeWhile isDigitC)), r1)) := by
  obtain ⟨h1, h2⟩ := collectWhileF_spec isDigitC (measF st + 1) st
    (Nat.lt_succ_of_le (pending_length_le _))
  rcases hd : (pending st).dropWhile isDigitC with _ | ⟨x, xs⟩
  · -- nothing after the digits: end of input
    rw [hd] at h2
    have he1 : (collectWhileF isDigitC (measF st + 1) st).2.eof = true :=
      pending_eq_nil.mp h2
    unfold scanNumberFSM
    simp [kl, h1, h2, he1]
  · rw [hd] at h2
    obtain ⟨he1, hc1, hr1⟩ := pending_eq_cons h2
    by_cases hx : x = '.' ∧ digitHead? xs = true
    · -- a real: `.` followed by a digit
      obtain ⟨hx1, hx2⟩ := hx
      have hpd : peekIsDigit (collectWhileF isDigitC (measF st + 1) st).2 = true := by
        rw [peekIsDigit_eq, hr1, hx2]
      have hadv : pending (advance (collectWhileF isDigitC (measF st + 1) st).2) = xs := by
        rw [pending_advance _ he1, hr1]
      obtain ⟨h3, h4⟩ := collectWhileF_spec isDigitC
        (measF (advance (collectWhileF isDigitC (measF st + 1) st).2) + 1)
        (advance (collectWhileF isDigitC (measF st + 1) st).2)
        (Nat.lt_succ_of_le (pending_length_le _))
      rw [hadv] at h3 h4
      unfold scanNumberFSM
      simp [kl, h1, h3, h4, he1, hc1, hx1, hpd, hx2]
    · -- not a real continuation: Integer, dot (if any) left unconsumed
      have hcond : ((!(collectWhileF isDigitC (measF st + 1) st).2.eof &&
          (collectWhileF isDigitC (measF st + 1) st).2.current = '.') &&
          peekIsDigit (collectWhileF isDigitC (measF st + 1) st).2) = false := by
        rw [peekIsDigit_eq, hr1, he1, hc1]
        rcases Decidable.not_and_iff_or_not.mp hx with h | h
        · simp [h]
        · simp [Bool.eq_false_iff.mpr h]
      unfold scanNumberFSM
      rcases Decidable.not_and_iff_or_not.mp hx with h | h
      · simp only [hcond, Bool.false_eq_true, if_false, kl]
        have : ¬(x :: xs = '.' :: xs) := by simp [h]
        split
        · next r2 heq =>
          rw [List.cons.injEq] at heq
          exact absurd heq.1 h
        · simp [kl, h1, h2]
      · simp only [hcond, Bool.false_eq_true, if_false]
        split
        · next r2 heq =>
          rw [List.cons.injEq] at heq
          obtain ⟨hx1, hx2⟩ := heq
          have : digitHead? r2 = false := by rw [← hx2]; simpa using h
          simp [this, kl, h1, h2, hx1, hx2]
        · simp [kl, h1, h2]

theorem scanOpOrSepSingle_spec (st : LexState) (he : st.eof = false) :
    (kl (scanOpOrSepSingle st).1, pending (scanOpOrSepSingle st).2) =
      scanOneSingle st.current st.rest := by
  have hadv : pending (advance st) = st.rest := pending_advance st he
  unfold scanOpOrSepSingle scanOneSingle
  split_ifs <;> simp [kl, hadv]

theorem scanOpOrSep_spec (st : LexState) (he : st.eof = false) :
    (kl (scanOpOrSep st).1, pending (scanOpOrSep st).2) =
      (match st.rest with
       | p :: r2 =>
         if isTwo st.current p then
           ((TokenType.Operator, String.mk [st.current, p]), r2)
         else scanOneSingle st.current st.rest
       | [] => scanOneSingle st.current st.rest) := by
  rcases hr : st.rest with _ | ⟨p, r2⟩
  · have hpk : peek? st = none := by simp [peek?, hr]
    rw [show scanOpOrSep st = scanOpOrSepSingle st by
      unfold scanOpOrSep; rw [hpk]]
    rw [scanOpOrSepSingle_spec st he, hr]
  · have hpk : peek? st = some p := by simp [peek?, hr]
    by_cases ht : isTwo st.current p
    · have hadv : pending (advance st) = p :: r2 := by
        rw [pending_advance st he, hr]
      obtain ⟨he2, hc2, hr2⟩ := pending_eq_cons hadv
      have hadv2 : pending (advance (advance st)) = r2 := by
        rw [pending_advance _ he2, hr2]
      unfold scanOpOrSep
      rw [hpk]
      simp [ht, kl, hadv2]
    · rw [show scanOpOrSep st = scanOpOrSepSingle st by
        unfold scanOpOrSep; rw [hpk]; simp [ht]]
      rw [scanOpOrSepSingle_spec st he, hr]
      simp [ht]

/-- One `nextToken` step of the scanner is exactly `scanOne` on the pending
characters (kinds, lexemes, and state all agree). -/
theorem nextToken_pending (st : LexState) :
    (kl (nextToken st).1, pending (nextToken st).2) = scanOne (pending st) := by
  have h0 : pending (skipSpaceF (measF st + 1) st) = (pending st).dropWhile isSpaceC :=
    skipSpaceF_pending _ st (Nat.lt_succ_of_le (pending_length_le st))
  unfold nextToken scanOne
  rcases hl0 : (pending st).dropWhile isSpaceC with _ | ⟨c, r⟩
  · rw [hl0] at h0
    have he := pending_eq_nil.mp h0
    simp [he, kl, h0]
  · rw [hl0] at h0
    obtain ⟨he, hc, hr⟩ := pending_eq_cons h0
    unfold scanOneCore
    rw [if_neg (by rw [he]; exact Bool.false_ne_true), hc, peekIsDigit_eq, hr]
    by_cases hq : c = '"'
    · have hspec := scanString_spec (skipSpaceF (measF st + 1) st) he
      rw [hr] at hspec
      simp only [if_pos hq]
      exact hspec
    · simp only [if_neg hq]
      by_cases hdot : (c = '.' && digitHead? r) = true
      · have hspec := scanRealStartingWithDot_spec (skipSpaceF (measF st + 1) st) he
        rw [hr] at hspec
        simp only [if_pos hdot]
        exact hspec
      · simp only [if_neg hdot]
        by_cases hletter : isLetterC c = true
        · have hspec := scanIdentifierFSM_spec (skipSpaceF (measF st + 1) st) he
          rw [hr, hc] at hspec
          simp only [if_pos hletter]
          exact hspec
        · simp only [if_neg hletter]
          by_cases hdig : isDigitC c = true
          · have hspec := scanNumberFSM_spec (skipSpaceF (measF st + 1) st)
            rw [h0] at hspec
            simp only [if_pos hdig]
            exact hspec
          · simp only [if_neg hdig]
            by_cases hso : (isSeparatorC c || isOperatorStartC c) = true
            · have hspec := scanOpOrSep_spec (skipSpaceF (measF st + 1) st) he
              rw [hr, hc] at hspec
              simp only [if_pos hso]
              exact hspec
            · have hadv : pending (advance (skipSpaceF (measF st + 1) st)) = r := by
                rw [pending_advance _ he, hr]
              simp only [if_neg hso]
              simp [kl, hadv]

/-! ## Character-class facts -/

theorem isLetterC_not_space {c : Char} (h : isLetterC c = true) :
    isSpaceC c = false := by
  simp only [isLetterC, Bool.or_eq_true, Bool.and_eq_true, decide_eq_true_eq] at h
  simp only [isSpaceC, Bool.or_eq_false_iff, decide_eq_false_iff_not]
  omega

theorem isDigitC_not_space {c : Char} (h : isDigitC c = true) :
    isSpaceC c = false := by
  simp only [isDigitC, Bool.and_eq_true, decide_eq_true_eq] at h
  simp only [isSpaceC, Bool.or_eq_false_iff, decide_eq_false_iff_not]
  omega

theorem isDigitC_not_letter {c : Char} (h : isDigitC c = true) :
    isLetterC c = false := by
  simp only [isDigitC, Bool.and_eq_true, decide_eq_true_eq] at h
  simp only [isLetterC, Bool.or_eq_false_iff, Bool.and_eq_false_iff,
    decide_eq_false_iff_not]
  omega

theorem isLetterC_ne_quote {c : Char} (h : isLetterC c = true) : c ≠ '"' := by
  intro hc; subst hc; exact absurd h (by decide)

theorem isLetterC_ne_dot {c : Char} (h : isLetterC c = true) : c ≠ '.' := by
  intro hc; subst hc; exact absurd h (by decide)

theorem isDigitC_ne_quote {c : Char} (h : isDigitC c = true) : c ≠ '"' := by
  intro hc; subst hc; exact absurd h (by decide)

theorem isDigitC_ne_dot {c : Char} (h : isDigitC c = true) : c ≠ '.' := by
  intro hc; subst hc; exact absurd h (by decide)

theorem isIdentRestC_of_digit {c : Char} (h : isDigitC c = true) :
    isIdentRestC c = true := by
  simp [isIdentRestC, h]

/-! ## Re-lexing one lexeme in isolation -/

theorem klStreamF_nil (n : Nat) :
    klStreamF (n + 1) [] = [(TokenType.EndOfFile, "")] := by
  simp [klStreamF, scanOne]

/-- If one `scanOne` step consumes the whole input producing a non-EOF token,
the stream is that token and then end-of-input. -/
theorem klStreamF_single (l : List Char) (ty : TokenType) (lx : String)
    (hone : scanOne l = ((ty, lx), [])) (hty : ty ≠ TokenType.EndOfFile) (n : Nat) :
    klStreamF (n + 2) l = [(ty, lx), (TokenType.EndOfFile, "")] := by
  show klStreamF ((n + 1) + 1) l = _
  unfold klStreamF
  rw [hone]
  simp [hty, klStreamF_nil n]

theorem takeWhile_append_of_not (p : Char → Bool) (y : Char)
    (xs ys : List Char) (hall : ∀ x ∈ xs, p x = true) (hy : p y = false) :
    (xs ++ y :: ys).takeWhile p = xs ∧ (xs ++ y :: ys).dropWhile p = y :: ys := by
  induction xs with
  | nil =>
    have hny : ¬p y = true := by simp [hy]
    simp [List.takeWhile_cons_of_neg hny, List.dropWhile_cons_of_neg hny]
  | cons a l ih =>
    have ha : p a = true := hall a (by simp)
    obtain ⟨ih1, ih2⟩ := ih (fun x hx => hall x (by simp [hx]))
    constructor
    · simp only [List.cons_append, List.takeWhile_cons_of_pos ha, ih1]
    · simp only [List.cons_append, List.dropWhile_cons_of_pos ha, ih2]

/-- Re-lexing an identifier/keyword lexeme in isolation. -/
theorem relex_ident (c : Char) (cs : List Char) (hc : isLetterC c = true)
    (hcs : ∀ x ∈ cs, isIdentRestC x = true) :
    klStreamF ((c :: cs).length + 2) (c :: cs) =
      [((if isKeywordStr (String.mk (c :: cs)) then TokenType.Keyword
          else TokenType.Identifier), String.mk (c :: cs)),
        (TokenType.EndOfFile, "")] := by
  have hone : scanOne (c :: cs) =
      (((if isKeywordStr (String.mk (c :: cs)) then TokenType.Keyword
          else TokenType.Identifier), String.mk (c :: cs)), []) := by
    unfold scanOne
    rw [List.dropWhile_cons_of_neg (by simp [isLetterC_not_space hc])]
    simp only [scanOneCore, if_neg (isLetterC_ne_quote hc),
      if_neg (show ¬(c = '.' && digitHead? cs) = true by
        simp [isLetterC_ne_dot hc]),
      if_pos hc,
      List.takeWhile_eq_self_iff.mpr hcs, List.dropWhile_eq_nil_iff.mpr hcs]
  refine klStreamF_single _ _ _ hone ?_ _
  by_cases hk : isKeywordStr (String.mk (c :: cs)) <;> simp [hk]

/-- Re-lexing an integer lexeme in isolation. -/
theorem relex_int (ds : List Char) (hne : ds ≠ [])
    (hds : ∀ x ∈ ds, isDigitC x = true) :
    klStreamF (ds.length + 2) ds =
      [(TokenType.Integer, String.mk ds), (TokenType.EndOfFile, "")] := by
  rcases ds with _ | ⟨d, ds'⟩
  · exact absurd rfl hne
  have hd : isDigitC d = true := hds d (by simp)
  have hone : scanOne (d :: ds') = ((TokenType.Integer, String.mk (d :: ds')), []) := by
    unfold scanOne
    rw [List.dropWhile_cons_of_neg (by simp [isDigitC_not_space hd])]
    simp only [scanOneCore, if_neg (isDigitC_ne_quote hd),
      if_neg (show ¬(d = '.' && digitHead? ds') = true by
        simp [isDigitC_ne_dot hd]),
      if_neg (show ¬isLetterC d = true by simp [isDigitC_not_letter hd]),
      if_pos hd,
      List.takeWhile_eq_self_iff.mpr hds, List.dropWhile_eq_nil_iff.mpr hds]
  exact klStreamF_single _ _ _ hone (by simp) _

/-- `scanOne` on a digit-headed list always enters the number branch. -/
theorem scanOne_digit (d : Char) (r : List Char) (hd : isDigitC d = true) :
    scanOne (d :: r) =
      (match (d :: r).dropWhile isDigitC with
       | '.' :: r2 =>
         if digitHead? r2 then
           ((TokenType.Real, String.mk ((d :: r).takeWhile isDigitC ++
              '.' :: r2.takeWhile isDigitC)), r2.dropWhile isDigitC)
         else ((TokenType.Integer, String.mk ((d :: r).takeWhile isDigitC)),
           '.' :: r2)
       | r1 => ((TokenType.Integer, String.mk ((d :: r).takeWhile isDigitC)), r1)) := by
  unfold scanOne
  rw [List.dropWhile_cons_of_neg (by simp [isDigitC_not_space hd])]
  simp only [scanOneCore, if_neg (isDigitC_ne_quote hd),
    if_neg (show ¬(d = '.' && digitHead? r) = true by simp [isDigitC_ne_dot hd]),
    if_neg (show ¬isLetterC d = true by simp [isDigitC_not_letter hd]),
    if_pos hd]

/-- Re-lexing a real lexeme `digits.digits` in isolation. -/
theorem relex_real (ds1 ds2 : List Char) (h1 : ds1 ≠ []) (h2 : ds2 ≠ [])
    (hd1 : ∀ x ∈ ds1, isDigitC x = true) (hd2 : ∀ x ∈ ds2, isDigitC x = true) :
    klStreamF ((ds1 ++ '.' :: ds2).length + 2) (ds1 ++ '.' :: ds2) =
      [(TokenType.Real, String.mk (ds1 ++ '.' :: ds2)), (TokenType.EndOfFile, "")] := by
  obtain ⟨hta, hda⟩ := takeWhile_append_of_not isDigitC '.' ds1 ds2 hd1 (by decide)
  rcases hds1 : ds1 with _ | ⟨d, ds'⟩
  · exact absurd hds1 h1
  rcases hds2 : ds2 with _ | ⟨e, es⟩
  · exact absurd hds2 h2
  have hd : isDigitC d = true := hd1 d (by rw [hds1]; simp)
  have he : isDigitC e = true := hd2 e (by rw [hds2]; simp)
  rw [← hds1, ← hds2]
  have hcons : ds1 ++ '.' :: ds2 = d :: (ds' ++ '.' :: ds2) := by rw [hds1]; rfl
  have hhead : digitHead? ds2 = true := by rw [hds2]; simpa [digitHead?] using he
  have hone : scanOne (ds1 ++ '.' :: ds2) =
      ((TokenType.Real, String.mk (ds1 ++ '.' :: ds2)), []) := by
    rw [hcons, scanOne_digit d (ds' ++ '.' :: ds2) hd, ← hcons, hda, hta]
    simp only [hhead, if_true, List.takeWhile_eq_self_iff.mpr hd2,
      List.dropWhile_eq_nil_iff.mpr hd2]
  exact klStreamF_single _ _ _ hone (by simp) _

/-- Re-lexing a real lexeme `.digits` in isolation. -/
theorem relex_dotreal (ds : List Char) (hne : ds ≠ [])
    (hds : ∀ x ∈ ds, isDigitC x = true) :
    klStreamF (('.' :: ds).length + 2) ('.' :: ds) =
      [(TokenType.Real, String.mk ('.' :: ds)), (TokenType.EndOfFile, "")] := by
  rcases hds0 : ds with _ | ⟨e, es⟩
  · exact absurd hds0 hne
  have he : isDigitC e = true := hds e (by rw [hds0]; simp)
  rw [← hds0]
  have hhead : digitHead? ds = true := by rw [hds0]; simpa [digitHead?] using he
  have hone : scanOne ('.' :: ds) =
      ((TokenType.Real, String.mk ('.' :: ds)), []) := by
    unfold scanOne
    rw [List.dropWhile_cons_of_neg (by decide)]
    simp [scanOneCore, hhead, List.takeWhile_eq_self_iff.mpr hds,
      List.dropWhile_eq_nil_iff.mpr hds]
  exact klStreamF_single _ _ _ hone (by simp) _

/-- Re-lexing a single-character lexeme that matches no scanning rule. -/
theorem relex_unknown (c : Char) (hsp : isSpaceC c = false) (hq : c ≠ '"')
    (hl : isLetterC c = false) (hd : isDigitC c = false)
    (hs : isSeparatorC c = false) (ho : isOperatorStartC c = false) :
    klStreamF 3 [c] =
      [(TokenType.Unknown, String.mk [c]), (TokenType.EndOfFile, "")] := by
  have hone : scanOne [c] = ((TokenType.Unknown, String.mk [c]), []) := by
    unfold scanOne
    rw [List.dropWhile_cons_of_neg (by simp [hsp])]
    simp only [scanOneCore, if_neg hq,
      if_neg (show ¬(c = '.' && digitHead? ([] : List Char)) = true by
        simp [digitHead?]),
      if_neg (show ¬isLetterC c = true by simp [hl]),
      if_neg (show ¬isDigitC c = true by simp [hd]),
      if_neg (show ¬(isSeparatorC c || isOperatorStartC c) = true by simp [hs, ho])]
  exact klStreamF_single _ _ _ hone (by simp) 1

/-! ## Every token the scanner emits fits one of the `TokShape` shapes -/

theorem opSepLexemes_facts : ∀ p ∈ opSepLexemes,
    p.1 ≠ TokenType.Keyword ∧ p.1 ≠ TokenType.Identifier ∧
    p.1 ≠ TokenType.String ∧ p.1 ≠ TokenType.EndOfFile ∧
    p.2 ≠ "true" ∧ p.2 ≠ "false" ∧
    klStreamF (p.2.data.length + 2) p.2.data = [p, (TokenType.EndOfFile, "")] := by
  decide

theorem scanOneSingle_shape (c : Char) (r : List Char)
    (hso : (isSeparatorC c || isOperatorStartC c) = true) :
    TokShape (scanOneSingle c r).1 := by
  unfold scanOneSingle
  split_ifs with h1 h2 h3
  · have hop : isOperatorStartC c = true := (Bool.and_eq_true _ _ |>.mp h1).1
    have hcm : c ∈ ['+', '-', '*', '/', '=', '<', '>', '!', '&', '|'] := by
      simp only [isOperatorStartC, Bool.or_eq_true, decide_eq_true_eq] at hop
      simp only [List.mem_cons, List.not_mem_nil, or_false]
      tauto
    show TokShape (TokenType.Operator, String.mk [c])
    fin_cases hcm <;> exact TokShape.opsep _ (by decide)
  · have hcm : c ∈ ['(', ')', '\x7b', '\x7d', '[', ']', ',', ';'] := by
      simp only [isSeparatorC, Bool.or_eq_true, decide_eq_true_eq] at h2
      simp only [List.mem_cons, List.not_mem_nil, or_false]
      tauto
    show TokShape (TokenType.Separator, String.mk [c])
    fin_cases hcm <;> exact TokShape.opsep _ (by decide)
  · have hcm : c ∈ ['!', '&', '|'] := by
      simp only [Bool.or_eq_true, decide_eq_true_eq] at h3
      simp only [List.mem_cons, List.not_mem_nil, or_false]
      tauto
    show TokShape (TokenType.Operator, String.mk [c])
    fin_cases hcm <;> exact TokShape.opsep _ (by decide)
  · exfalso
    rcases (by simpa using hso :
        isSeparatorC c = true ∨ isOperatorStartC c = true) with hsep | hop
    · exact h2 hsep
    · rcases Bool.eq_false_or_eq_true
        (decide (c = '!') || decide (c = '&') || decide (c = '|')) with hlb | hlb
      · exact h3 hlb
      · exact h1 (by rw [hop, hlb]; rfl)

theorem scanOneCore_shape (c : Char) (r : List Char) (hsp : isSpaceC c = false) :
    TokShape (scanOneCore c r).1 := by
  unfold scanOneCore
  split
  · exact TokShape.str _
  · next hq =>
    split
    · next hdot =>
      obtain ⟨hc', hdh⟩ : c = '.' ∧ digitHead? r = true := by simpa using hdot
      rcases r with _ | ⟨d, r'⟩
      · simp [digitHead?] at hdh
      · have hd : isDigitC d = true := by simpa [digitHead?] using hdh
        have ht : (d :: r').takeWhile isDigitC = d :: r'.takeWhile isDigitC :=
          List.takeWhile_cons_of_pos hd
        rw [ht]
        refine TokShape.dotreal (d :: r'.takeWhile isDigitC) (by simp) ?_
        intro x hx
        rcases List.mem_cons.mp hx with h | h
        · rw [h]; exact hd
        · exact List.mem_takeWhile_imp h
    · next hdot =>
      split
      · next hlet =>
        exact TokShape.ident c _ hlet (fun x hx => List.mem_takeWhile_imp hx)
      · next hlet =>
        split
        · next hdig =>
          have hta : (c :: r).takeWhile isDigitC = c :: r.takeWhile isDigitC :=
            List.takeWhile_cons_of_pos hdig
          have htne : (c :: r).takeWhile isDigitC ≠ [] := by rw [hta]; simp
          have htall : ∀ x ∈ (c :: r).takeWhile isDigitC, isDigitC x = true :=
            fun x hx => List.mem_takeWhile_imp hx
          split
          · next r2 heq =>
            split
            · next hdh =>
              rcases r2 with _ | ⟨e, es⟩
              · simp [digitHead?] at hdh
              · have he : isDigitC e = true := by simpa [digitHead?] using hdh
                have ht2 : (e :: es).takeWhile isDigitC = e :: es.takeWhile isDigitC :=
                  List.takeWhile_cons_of_pos he
                refine TokShape.real _ _ htne (by rw [ht2]; simp) htall ?_
                exact fun x hx => List.mem_takeWhile_imp hx
            · next hdh =>
              exact TokShape.int _ htne htall
          · exact TokShape.int _ htne htall
        · next hdig =>
          split
          · next hso =>
            split
            · next p r2 =>
              split
              · next ht =>
                show TokShape (TokenType.Operator, String.mk [c, p])
                have hcp : (c, p) ∈
                    [('<', '='), ('>', '='), ('=', '='), ('!', '='),
                     ('&', '&'), ('|', '|')] := by
                  simp only [isTwo, Bool.or_eq_true, Bool.and_eq_true,
                    decide_eq_true_eq] at ht
                  simp only [List.mem_cons, List.not_mem_nil, or_false,
                    Prod.mk.injEq]
                  tauto
                fin_cases hcp <;> exact TokShape.opsep _ (by decide)
              · exact scanOneSingle_shape c _ hso
            · exact scanOneSingle_shape c _ hso
          · next hso =>
            have h' := hso
            rw [Bool.or_eq_true, not_or] at h'
            exact TokShape.unknown c hsp hq (by simpa using hlet)
              (by simpa using hdig) (by simpa using h'.1) (by simpa using h'.2)

theorem scanOne_shape (l : List Char) : TokShape (scanOne l).1 := by
  unfold scanOne
  rcases hdw : l.dropWhile isSpaceC with _ | ⟨c, r⟩
  · exact TokShape.eof
  · have hsp : isSpaceC c = false := by
      have := List.head?_dropWhile_not isSpaceC l
      rw [hdw] at this
      simpa using this
    exact scanOneCore_shape c r hsp

theorem klStreamF_shape (n : Nat) : ∀ (l : List Char) (p : TokenType × String),
    p ∈ klStreamF n l → TokShape p := by
  induction n with
  | zero => intro l p h; simp [klStreamF] at h
  | succ m ih =>
    intro l p h
    unfold klStreamF at h
    by_cases he : (scanOne l).1.1 = TokenType.EndOfFile
    · simp only [he, if_pos, if_true, List.mem_singleton] at h
      rw [h]; exact scanOne_shape l
    · simp only [he, if_neg, if_false, List.mem_cons] at h
      rcases h with h | h
      · rw [h]; exact scanOne_shape l
      · exact ih _ _ h

/-! ## From the state machine to the list-level stream -/

theorem lexAllF_map_kl (n : Nat) : ∀ st : LexState,
    (lexAllF n st).map kl = klStreamF n (pending st) := by
  induction n with
  | zero => intro st; simp [lexAllF, klStreamF]
  | succ m ih =>
    intro st
    have hb := nextToken_pending st
    unfold lexAllF klStreamF
    rw [← hb]
    by_cases he : (nextToken st).1.type = TokenType.EndOfFile
    · simp [he, kl]
    · simp [he, kl, ih]

theorem pending_init (l : List Char) : pending (initState l) = l := by
  unfold initState
  rw [pending_advance _ rfl]

theorem lexAll_map_kl (s : String) :
    (lexAll s).map kl = klStreamF (s.data.length + 2) s.data := by
  unfold lexAll
  rw [lexAllF_map_kl, pending_init]

/-- Every token of the scanner's stream has one of the shapes. -/
theorem lexAll_shape {s : String} {t : Token} (h : t ∈ lexAll s) :
    TokShape (kl t) := by
  have hm : kl t ∈ (lexAll s).map kl := List.mem_map_of_mem kl h
  rw [lexAll_map_kl] at hm
  exact klStreamF_shape _ _ _ hm

/-! ## Consequences of the shapes -/

theorem shape_keyword {p : TokenType × String} (h : TokShape p)
    (hk : p.1 = TokenType.Keyword) : isKeywordStr p.2 = true := by
  cases h with
  | eof => simp at hk
  | str s => simp at hk
  | dotreal ds hne hds => simp at hk
  | ident c cs hc hcs =>
    by_cases hkw : isKeywordStr (String.mk (c :: cs)) = true
    · simpa using hkw
    · simp [hkw] at hk
  | int ds hne hds => simp at hk
  | real ds1 ds2 h1 h2 hd1 hd2 => simp at hk
  | opsep _ hq => exact absurd hk (opSepLexemes_facts _ hq).1
  | unknown c h1 h2 h3 h4 h5 h6 => simp at hk

theorem shape_truefalse {p : TokenType × String} (h : TokShape p)
    (ht : p.2 = "true" ∨ p.2 = "false") :
    p.1 = TokenType.Identifier ∨ p.1 = TokenType.String := by
  cases h with
  | eof => rcases ht with h' | h' <;> exact absurd h' (by decide)
  | str s => exact Or.inr rfl
  | dotreal ds hne hds =>
    exfalso
    rcases ht with h' | h' <;>
    · have hd := congrArg String.data h'
      simp only [] at hd
      injection hd with hd1 hd2
      exact absurd hd1 (by decide)
  | ident c cs hc hcs =>
    left
    rcases ht with h' | h'
    · have h'' : String.mk (c :: cs) = "true" := h'
      show (if isKeywordStr (String.mk (c :: cs)) = true then TokenType.Keyword
        else TokenType.Identifier) = TokenType.Identifier
      rw [h'', if_neg (by decide)]
    · have h'' : String.mk (c :: cs) = "false" := h'
      show (if isKeywordStr (String.mk (c :: cs)) = true then TokenType.Keyword
        else TokenType.Identifier) = TokenType.Identifier
      rw [h'', if_neg (by decide)]
  | int ds hne hds =>
    exfalso
    rcases ht with h' | h'
    · have hd := congrArg String.data h'
      simp only [] at hd
      rw [hd] at hds
      exact absurd (hds 't' (by simp)) (by decide)
    · have hd := congrArg String.data h'
      simp only [] at hd
      rw [hd] at hds
      exact absurd (hds 'f' (by simp)) (by decide)
  | real ds1 ds2 h1 h2 hd1 hd2 =>
    exfalso
    have hdot : '.' ∈ ds1 ++ '.' :: ds2 := by simp
    rcases ht with h' | h' <;>
    · have hd := congrArg String.data h'
      simp only [] at hd
      rw [hd] at hdot
      simp at hdot
  | opsep _ hq =>
    exfalso
    rcases ht with h' | h'
    · exact absurd h' (opSepLexemes_facts _ hq).2.2.2.2.1
    · exact absurd h' (opSepLexemes_facts _ hq).2.2.2.2.2.1
  | unknown c h1 h2 h3 h4 h5 h6 =>
    exfalso
    rcases ht with h' | h' <;>
    · have hd := congrArg String.data h'
      simp only [] at hd
      have := congrArg List.length hd
      simp at this

theorem shape_relex {p : TokenType × String} (h : TokShape p)
    (he : p.1 ≠ TokenType.EndOfFile) (hs : p.1 ≠ TokenType.String) :
    klStreamF (p.2.data.length + 2) p.2.data = [p, (TokenType.EndOfFile, "")] := by
  cases h with
  | eof => exact absurd rfl he
  | str s => exact absurd rfl hs
  | dotreal ds hne hds => exact relex_dotreal ds hne hds
  | ident c cs hc hcs => exact relex_ident c cs hc hcs
  | int ds hne hds => exact relex_int ds hne hds
  | real ds1 ds2 h1 h2 hd1 hd2 => exact relex_real ds1 ds2 h1 h2 hd1 hd2
  | opsep _ hq => exact (opSepLexemes_facts _ hq).2.2.2.2.2.2
  | unknown c h1 h2 h3 h4 h5 h6 => exact relex_unknown c h1 h2 h3 h4 h5 h6

/-- A Keyword-typed token of the scanner always carries a lexeme of the
keyword set (matched case-insensitively). -/
theorem lexAll_keyword_sound {s : String} {t : Token} (h : t ∈ lexAll s)
    (hk : t.type = TokenType.Keyword) : isKeywordStr t.lexeme = true :=
  shape_keyword (lexAll_shape h) hk

/-! ## Repeated calls at end of input -/

theorem nextToken_eof (st : LexState) (he : st.eof = true) :
    nextToken st = (⟨TokenType.EndOfFile, "", st.line, st.col⟩, st) := by
  unfold nextToken
  have h0 : skipSpaceF (measF st + 1) st = st := by
    simp [skipSpaceF, he]
  rw [h0]
  simp [he]

theorem lexCalls_eof (n : Nat) : ∀ st : LexState, st.eof = true →
    lexCalls st n = (⟨TokenType.EndOfFile, "", st.line, st.col⟩, st) := by
  induction n with
  | zero => intro st he; exact nextToken_eof st he
  | succ m ih =>
    intro st he
    show lexCalls (nextToken st).2 m = _
    rw [nextToken_eof st he]
    exact ih st he

/-! # The claims -/

/-- C5: the input `123.` lexes as Integer `123` followed by Unknown `.`
(the trailing dot is not consumed into the number), and `.5` lexes as a
single Real `.5`.  (The end-of-input token that closes each stream is
included in the equations.) -/
theorem claim_C5 :
    (lexAll "123.").map kl =
      [(TokenType.Integer, "123"), (TokenType.Unknown, "."),
        (TokenType.EndOfFile, "")] ∧
    (lexAll ".5").map kl = [(TokenType.Real, ".5"), (TokenType.EndOfFile, "")] := by
  decide

/-- C6: when a `"` begins a string literal that is never closed before
end-of-input, `nextToken` returns a String token whose lexeme is everything
after the opening quote, without raising any error, and every later call
returns an end-of-input token. -/
theorem claim_C6 (st : LexState) (he : st.eof = false) (hc : st.current = '"')
    (hnq : '"' ∉ st.rest) :
    (nextToken st).1.type = TokenType.String ∧
    (nextToken st).1.lexeme = String.mk st.rest ∧
    (nextToken st).2.eof = true ∧
    ∀ n, (lexCalls (nextToken st).2 n).1 =
      ⟨TokenType.EndOfFile, "", (nextToken st).2.line, (nextToken st).2.col⟩ := by
  have h0 : skipSpaceF (measF st + 1) st = st := by
    simp [skipSpaceF, he, hc, show isSpaceC '"' = false from by decide]
  have hnx : nextToken st = scanString st := by
    unfold nextToken
    rw [h0]
    simp [he, hc]
  obtain ⟨hsp1, hsp2⟩ := Prod.mk.injEq _ _ _ _ |>.mp (scanString_spec st he)
  have htw : st.rest.takeWhile (fun x => !(x = '"')) = st.rest :=
    List.takeWhile_eq_self_iff.mpr (fun x hx => by
      simp only [Bool.not_eq_true', decide_eq_false_iff_not]
      intro hxq; rw [hxq] at hx; exact hnq hx)
  have hdw : st.rest.dropWhile (fun x => !(x = '"')) = [] :=
    List.dropWhile_eq_nil_iff.mpr (fun x hx => by
      simp only [Bool.not_eq_true', decide_eq_false_iff_not]
      intro hxq; rw [hxq] at hx; exact hnq hx)
  rw [htw] at hsp1
  rw [hdw] at hsp2
  have heof : (scanString st).2.eof = true := by
    rw [← pending_eq_nil]
    simpa using hsp2
  have hty : (scanString st).1.type = TokenType.String := by
    have := congrArg Prod.fst hsp1
    simpa [kl] using this
  have hlx : (scanString st).1.lexeme = String.mk st.rest := by
    have := congrArg Prod.snd hsp1
    simpa [kl] using this
  refine ⟨by rw [hnx]; exact hty, by rw [hnx]; exact hlx, by rw [hnx]; exact heof, ?_⟩
  intro n
  rw [hnx]
  rw [lexCalls_eof n (scanString st).2 heof]

/-- C6 witness at the concrete unterminated input `"ab`. -/
theorem claim_C6_witness :
    (nextToken (initState ['"', 'a', 'b'])).1.type = TokenType.String ∧
    (nextToken (initState ['"', 'a', 'b'])).1.lexeme = String.mk ['a', 'b'] ∧
    (nextToken (initState ['"', 'a', 'b'])).2.eof = true ∧
    ∀ n, (lexCalls (nextToken (initState ['"', 'a', 'b'])).2 n).1 =
      ⟨TokenType.EndOfFile, "", (nextToken (initState ['"', 'a', 'b'])).2.line,
        (nextToken (initState ['"', 'a', 'b'])).2.col⟩ :=
  claim_C6 (initState ['"', 'a', 'b']) (by decide) (by decide) (by decide)

/-- C7: each `nextToken` call returns exactly one token (it is a total
function of the scanner state), and once the input is exhausted every
further call — any number of them — returns the end-of-input token with an
empty lexeme and leaves the state unchanged, without erroring. -/
theorem claim_C7 (st : LexState) (he : st.eof = true) (n : Nat) :
    lexCalls st n = (⟨TokenType.EndOfFile, "", st.line, st.col⟩, st) :=
  lexCalls_eof n st he

/-- C7 witness: the scanner of an empty input, called repeatedly. -/
theorem claim_C7_witness :
    lexCalls (initState []) 5 =
      (⟨TokenType.EndOfFile, "", (initState []).line, (initState []).col⟩,
        initState []) :=
  claim_C7 (initState []) (by decide) 5

/-- C4, as stated, is false: on the successfully parsed input `return x ;`
(echo enabled, default configuration) the echo records the lexemes
`return`, `x`, `;`; concatenating them with the original whitespace removed
gives `returnx;`, which re-lexes to the identifier `returnx` and `;` — not
the token stream of the original input. -/
theorem claim_C4_counterexample :
    (match runProgram {} {} 20 "return x ;" with
      | Except.ok stF => echoStrings stF.out
      | Except.error _ => []) = ["return", "x", ";"] ∧
    String.join ["return", "x", ";"] = "returnx;" ∧
    (lexAll "returnx;").map kl ≠ (lexAll "return x ;").map kl := by
  refine ⟨by decide, by decide, by decide⟩

/-- C4 (amended): the echoed lexemes are faithful token by token but not
under whitespace-free concatenation.  Every token the scanner produces,
other than String tokens (whose recorded lexeme lacks the quotes) and
end-of-input, re-lexes as a standalone input to a single token of the same
kind and lexeme (followed only by end-of-input); concatenating the echoed
lexemes with all whitespace removed does not in general reproduce the
original token stream, since adjacent tokens can merge (see the
counterexample). -/
theorem claim_C4_amended (s : String) (t : Token) (h : t ∈ lexAll s)
    (hs : t.type ≠ TokenType.String) (he : t.type ≠ TokenType.EndOfFile) :
    (lexAll t.lexeme).map kl = [(t.type, t.lexeme), (TokenType.EndOfFile, "")] := by
  have hrelex := shape_relex (lexAll_shape h) he hs
  rw [lexAll_map_kl]
  exact hrelex

/-- C4 amended-claim witness: the keyword token of the input `return`. -/
theorem claim_C4_amended_witness :
    (lexAll "return").map kl =
      [(TokenType.Keyword, "return"), (TokenType.EndOfFile, "")] :=
  claim_C4_amended "return" ⟨TokenType.Keyword, "return", 1, 6⟩
    (by decide) (by decide) (by decide)

/-! One-step unfolding equations for the grammar procedures the claims
reason about symbolically. -/

set_option maxHeartbeats 1000000 in
theorem parseNT_statementList_eq (cfg : TraceConfig) (pol : ParserPolicy)
    (n : Nat) (st : PState) :
    parseNT cfg pol (n + 1) NT.statementList st = (do
      let st := skipBanner st
      if (cur st).type = TokenType.EndOfFile || isSepT "\x7d" (cur st) then
        pure (prodSt Rule.StatementList "<Statement List> -> ε" cfg st)
      else if isSepT "\x7b" (cur st) || (cur st).type = TokenType.Identifier ||
          isKwP pol "if" (cur st) || isKwP pol "return" (cur st) ||
          isKwP pol "put" (cur st) || isKwP pol "get" (cur st) ||
          isKwP pol "while" (cur st) then
        let st := prodSt Rule.StatementList
          "<Statement List> -> <Statement> <Statement List Prime>" cfg st
        let st ← parseNT cfg pol n NT.statement st
        parseNT cfg pol n NT.statementListPrime st
      else
        pure (prodSt Rule.StatementList "<Statement List> -> ε" cfg st)) := rfl

set_option maxHeartbeats 1000000 in
theorem parseNT_statement_eq (cfg : TraceConfig) (pol : ParserPolicy)
    (n : Nat) (st : PState) :
    parseNT cfg pol (n + 1) NT.statement st = (do
      if (cur st).type = TokenType.String then
        let st := padvance st
        pure (prodSt Rule.Statement "<Statement> -> ε" cfg st)
      else if isSepT "\x7b" (cur st) then
        let st := prodSt Rule.Statement "<Statement> -> <Compound>" cfg st
        parseNT cfg pol n NT.compound st
      else if (cur st).type = TokenType.Identifier then
        let st := prodSt Rule.Statement "<Statement> -> <Assign>" cfg st
        parseNT cfg pol n NT.assign st
      else if isKwP pol "if" (cur st) then
        let st := prodSt Rule.Statement "<Statement> -> <If>" cfg st
        parseNT cfg pol n NT.ifStmt st
      else if isKwP pol "return" (cur st) then
        let st := prodSt Rule.Statement "<Statement> -> <Return>" cfg st
        parseNT cfg pol n NT.returnStmt st
      else if isKwP pol "put" (cur st) then
        let st := prodSt Rule.Statement "<Statement> -> <Print>" cfg st
        parseNT cfg pol n NT.printStmt st
      else if isKwP pol "get" (cur st) then
        let st := prodSt Rule.Statement "<Statement> -> <Scan>" cfg st
        parseNT cfg pol n NT.scanStmt st
      else if isKwP pol "while" (cur st) then
        let st := prodSt Rule.Statement "<Statement> -> <While>" cfg st
        parseNT cfg pol n NT.whileStmt st
      else Except.error (errorHere "statement expected" st)) := rfl

set_option maxHeartbeats 1000000 in
theorem parseNT_primary_eq (cfg : TraceConfig) (pol : ParserPolicy)
    (n : Nat) (st : PState) :
    parseNT cfg pol (n + 1) NT.primary st = (do
      if (cur st).type = TokenType.Identifier then
        let st := prodSt Rule.Primary
          "<Primary> -> <Identifier> <Primary Prime>" cfg st
        let st ← expectIdentifier pol st
        parseNT cfg pol n NT.primaryPrime st
      else if (cur st).type = TokenType.Integer then
        let st := prodSt Rule.Primary "<Primary> -> <Integer>" cfg st
        pure (padvance (echoTok pol st))
      else if (cur st).type = TokenType.Real then
        let st := prodSt Rule.Primary "<Primary> -> <Real>" cfg st
        pure (padvance (echoTok pol st))
      else if isSepT "(" (cur st) then
        let st := prodSt Rule.Primary "<Primary> -> ( <Expression> )" cfg st
        let st ← expectSep pol "(" st
        let st ← parseNT cfg pol n NT.expression st
        expectSep pol ")" st
      else if ((cur st).lexeme = "true" || (cur st).lexeme = "false") &&
          ((cur st).type = TokenType.Identifier ||
            (cur st).type = TokenType.Keyword) then
        let st := prodSt Rule.Primary "<Primary> -> true | false" cfg st
        pure (padvance (echoTok pol st))
      else if pol.allowStringPrimary && (cur st).type = TokenType.String then
        let st := prodSt Rule.Primary "<Primary> -> <String>" cfg st
        pure (padvance (echoTok pol st))
      else Except.error (errorHere "primary expected" st)) := rfl

/-- C1, as stated, is false: with an Integer lookahead — which cannot start a
statement — `parseStatementList` succeeds silently (taking the epsilon
production, hidden by the default epsilon-hiding flag) instead of raising a
syntax error. -/
theorem claim_C1_counterexample :
    parseNT {} {} 5 NT.statementList
      { toks := [⟨TokenType.Integer, "5", 1, 1⟩, ⟨TokenType.EndOfFile, "", 1, 1⟩],
        out := [] } =
    Except.ok
      { toks := [⟨TokenType.Integer, "5", 1, 1⟩, ⟨TokenType.EndOfFile, "", 1, 1⟩],
        out := [] } := by
  decide

/-- C1 (amended): a statement list is closed (epsilon) when the lookahead is
end-of-input or `}`, and also — silently, with the epsilon trace line and no
syntax error — for any other lookahead token that cannot start a statement
(not `{`, not an Identifier, none of the keywords if/return/put/get/while,
and not a banner string): the parser takes the safe epsilon fallback and
consumes nothing. -/
theorem claim_C1_amended (cfg : TraceConfig) (pol : ParserPolicy) (n : Nat)
    (st : PState) (t : Token) (ts : List Token) (htoks : st.toks = t :: ts)
    (hstr : t.type ≠ TokenType.String) (heof : t.type ≠ TokenType.EndOfFile)
    (hrb : isSepT "\x7d" t = false) (hlb : isSepT "\x7b" t = false)
    (hid : t.type ≠ TokenType.Identifier)
    (hif : isKwP pol "if" t = false) (hret : isKwP pol "return" t = false)
    (hput : isKwP pol "put" t = false) (hget : isKwP pol "get" t = false)
    (hwhile : isKwP pol "while" t = false) :
    parseNT cfg pol (n + 1) NT.statementList st =
      Except.ok (prodSt Rule.StatementList "<Statement List> -> ε" cfg st) := by
  have hsb : skipBanner st = st := by
    unfold skipBanner
    rw [htoks]
    rw [show skipBannerToks (t :: ts) = t :: ts from by
      simp [skipBannerToks, hstr]]
    rw [← htoks]
  have hcur : cur st = t := by simp [cur, htoks]
  rw [parseNT_statementList_eq, hsb]
  simp only [hcur]
  simp [heof, hrb, hlb, hid, hif, hret, hput, hget, hwhile]
  rfl

/-- C1 amended-claim witness: an Integer lookahead under the default
configuration. -/
theorem claim_C1_amended_witness :
    parseNT {} {} 4 NT.statementList
      { toks := [⟨TokenType.Integer, "5", 1, 1⟩, ⟨TokenType.EndOfFile, "", 1, 1⟩],
        out := [] } =
    Except.ok (prodSt Rule.StatementList "<Statement List> -> ε" {}
      { toks := [⟨TokenType.Integer, "5", 1, 1⟩, ⟨TokenType.EndOfFile, "", 1, 1⟩],
        out := [] }) :=
  claim_C1_amended {} {} 3 _ ⟨TokenType.Integer, "5", 1, 1⟩
    [⟨TokenType.EndOfFile, "", 1, 1⟩] rfl (by decide) (by decide) (by decide)
    (by decide) (by decide) (by decide) (by decide) (by decide) (by decide)
    (by decide)

/-- C2, as stated, is false: with tracing on and an *empty* allow-set,
matching the relational operator `==` emits no `<Relop> -> ==` line — only
the token echo — because `parseRelop` requires `Rule::Relop` to be a member
of the allow-set rather than going through `prod`. -/
theorem claim_C2_counterexample :
    parseRelop { enabled := [] } {}
      { toks := [⟨TokenType.Operator, "==", 1, 2⟩, ⟨TokenType.EndOfFile, "", 1, 2⟩],
        out := [] } =
    Except.ok
      { toks := [⟨TokenType.EndOfFile, "", 1, 2⟩],
        out := [Item.tok ⟨TokenType.Operator, "==", 1, 2⟩] } := by
  decide

/-- C2 (amended): with tracing on and an empty allow-set, every trace line
routed through the shared `prod` helper is emitted, subject only to the
epsilon-, Opt- and scaffolding-hiding flags; but `parseRelop` bypasses
`prod` and tests membership directly, so with an empty allow-set it emits no
`<Relop> -> <lexeme>` line — its result is the token echo and advance
alone. -/
theorem claim_C2_amended (cfg : TraceConfig) (pol : ParserPolicy) (r : Rule)
    (text : String) (st st2 : PState) (t : Token) (ts : List Token)
    (hmaster : cfg.master = true) (hempty : cfg.enabled = [])
    (h1 : (cfg.hideEpsilon && hasSub text "ε") = false)
    (h2 : (cfg.hideOpt && hasSub text "Opt ") = false)
    (h3 : (cfg.hideScaffolding &&
      (hasSub text "Rat25F" || hasSub text "Statement List")) = false)
    (htoks : st2.toks = t :: ts)
    (hrel : (isOpT "==" t || isOpT "!=" t || isOpT ">" t || isOpT "<" t ||
      isOpT "<=" t || isOpT ">=" t) = true) :
    prodSt r text cfg st = { st with out := st.out ++ [Item.line text] } ∧
    parseRelop cfg pol st2 = Except.ok (padvance (echoTok pol st2)) := by
  constructor
  · unfold prodSt
    rw [hmaster, hempty]
    simp [h1, h2, h3]
  · have hcur : cur st2 = t := by simp [cur, htoks]
    unfold parseRelop
    rw [hcur, hempty]
    simp [hrel]

/-- C2 amended-claim witness: `prod` on the Expression rule and `parseRelop`
on `==`, both with an empty allow-set. -/
theorem claim_C2_amended_witness :
    prodSt Rule.Expression "<Expression> -> <Term> <Expression Prime>"
        { enabled := [] } { toks := [], out := [] } =
      { toks := ([] : List Token),
        out := [Item.line "<Expression> -> <Term> <Expression Prime>"] } ∧
    parseRelop { enabled := [] } {}
        { toks := [⟨TokenType.Operator, "==", 1, 2⟩, ⟨TokenType.EndOfFile, "", 1, 2⟩],
          out := [] } =
      Except.ok (padvance (echoTok {}
        { toks := [⟨TokenType.Operator, "==", 1, 2⟩, ⟨TokenType.EndOfFile, "", 1, 2⟩],
          out := [] })) :=
  claim_C2_amended { enabled := [] } {} Rule.Expression
    "<Expression> -> <Term> <Expression Prime>" { toks := [], out := [] } _
    ⟨TokenType.Operator, "==", 1, 2⟩ [⟨TokenType.EndOfFile, "", 1, 2⟩]
    rfl rfl (by decide) (by decide) (by decide) rfl (by decide)

/-- C3, as stated, is false: an Identifier token with lexeme `if` at a
statement position is dispatched to the Assign path — `parseStatement`
tests the Identifier branch before the (lenient) keyword branches — so the
trace shows `<Statement> -> <Assign>` and no `<Statement> -> <If>`. -/
theorem claim_C3_counterexample :
    parseNT {} {} 10 NT.statement
      { toks := [⟨TokenType.Identifier, "if", 1, 2⟩, ⟨TokenType.Operator, "=", 1, 4⟩,
                 ⟨TokenType.Integer, "3", 1, 6⟩, ⟨TokenType.Separator, ";", 1, 7⟩,
                 ⟨TokenType.EndOfFile, "", 1, 7⟩], out := [] } =
    Except.ok
      { toks := [⟨TokenType.EndOfFile, "", 1, 7⟩],
        out := [Item.line "<Statement> -> <Assign>",
                Item.line "<Assign> -> <Identifier> = <Expression> ;",
                Item.tok ⟨TokenType.Identifier, "if", 1, 2⟩,
                Item.tok ⟨TokenType.Operator, "=", 1, 4⟩,
                Item.tok ⟨TokenType.Integer, "3", 1, 6⟩,
                Item.tok ⟨TokenType.Separator, ";", 1, 7⟩] } := by
  decide

/-- C3 (amended): with the lenient-keywords policy enabled, an Identifier
token with lexeme `if` appearing where a statement is expected selects the
*Assign* production path (emitting `<Statement> -> <Assign>` and parsing an
assignment), not the If path: the Identifier branch of `parseStatement`
precedes the keyword checks, so the lenient match never gets to fire there.
Only a Keyword-typed `if` selects the If path. -/
theorem claim_C3_amended (cfg : TraceConfig) (pol : ParserPolicy)
    (hlen : pol.lenientKeywords = true) (n : Nat) (st : PState) (t : Token)
    (ts : List Token) (htoks : st.toks = t :: ts)
    (hid : t.type = TokenType.Identifier) (hlex : t.lexeme = "if") :
    parseNT cfg pol (n + 1) NT.statement st =
      parseNT cfg pol n NT.assign
        (prodSt Rule.Statement "<Statement> -> <Assign>" cfg st) := by
  have hcur : cur st = t := by simp [cur, htoks]
  have hnstr : t.type ≠ TokenType.String := by rw [hid]; decide
  have hnsep : isSepT "\x7b" t = false := by
    simp [isSepT, hid]
  rw [parseNT_statement_eq]
  simp only [hcur]
  simp [hnstr, hnsep, hid]

/-- C8, as stated, is false in one detail: the reported column is the
scanner's column counter, which is 0 right after a newline — not 1-based.
On the input `{` + newline, the failing `expectSep "}"` reports
`line 2, col 0`. -/
theorem claim_C8_counterexample :
    parseNT {} {} 10 NT.statement { toks := lexAll "\x7b\n", out := [] } =
    Except.error (PErr.err
      "Syntax error: separator '\x7d' expected at line 2, col 0 (near '')"
      [Item.line "<Statement> -> <Compound>",
       Item.tok ⟨TokenType.Separator, "\x7b", 2, 0⟩]) := by
  decide

/-- C8 (amended): whenever any expect check fails, the parser raises a
single syntax error whose message contains the expected-token description,
the actual current token's lexeme, and that token's recorded line and
column (the line is 1-based; the column is the scanner's counter, which is
0 right after a newline); the error is fatal — the `expect` returns the
error, and it propagates unchanged through any continuation to the caller
of `parse()`. -/
theorem claim_C8_amended (pol : ParserPolicy) (s msg : String) (st : PState)
    (k : PState → Except PErr PState) :
    (errorHere msg st = PErr.err ("Syntax error: " ++ msg ++ " at line " ++
        toString (cur st).line ++ ", col " ++ toString (cur st).col ++
        " (near '" ++ (cur st).lexeme ++ "')") st.out) ∧
    ((cur st).type ≠ TokenType.Identifier → expectIdentifier pol st =
      Except.error (errorHere "identifier expected" st)) ∧
    (isKwP pol s (cur st) = false → expectKw pol s st =
      Except.error (errorHere ("'" ++ s ++ "' expected") st)) ∧
    (isOpT s (cur st) = false → expectOp pol s st =
      Except.error (errorHere ("operator '" ++ s ++ "' expected") st)) ∧
    (isSepT s (cur st) = false → expectSep pol s st =
      Except.error (errorHere ("separator '" ++ s ++ "' expected") st)) ∧
    ((cur st).type ≠ TokenType.Identifier →
      (expectIdentifier pol st >>= k) = expectIdentifier pol st) := by
  refine ⟨rfl, ?_, ?_, ?_, ?_, ?_⟩
  · intro h
    unfold expectIdentifier
    rw [if_neg h]
  · intro h
    unfold expectKw
    rw [if_neg (by simp [h])]
  · intro h
    unfold expectOp
    rw [if_neg (by simp [h])]
  · intro h
    unfold expectSep
    rw [if_neg (by simp [h])]
  · intro h
    unfold expectIdentifier
    rw [if_neg h]
    rfl

/-- C8 amended-claim witness: a failing separator expectation on an Integer
lookahead. -/
theorem claim_C8_amended_witness :
    (errorHere "x" { toks := [⟨TokenType.Integer, "5", 1, 1⟩], out := [] } =
      PErr.err ("Syntax error: " ++ "x" ++ " at line " ++ toString (1 : Nat) ++
        ", col " ++ toString (1 : Nat) ++ " (near '" ++ "5" ++ "')") []) ∧
    (expectIdentifier {} { toks := [⟨TokenType.Integer, "5", 1, 1⟩], out := [] } =
      Except.error (errorHere "identifier expected"
        { toks := [⟨TokenType.Integer, "5", 1, 1⟩], out := [] })) ∧
    (expectKw {} ";" { toks := [⟨TokenType.Integer, "5", 1, 1⟩], out := [] } =
      Except.error (errorHere ("'" ++ ";" ++ "' expected")
        { toks := [⟨TokenType.Integer, "5", 1, 1⟩], out := [] })) ∧
    (expectOp {} ";" { toks := [⟨TokenType.Integer, "5", 1, 1⟩], out := [] } =
      Except.error (errorHere ("operator '" ++ ";" ++ "' expected")
        { toks := [⟨TokenType.Integer, "5", 1, 1⟩], out := [] })) ∧
    (expectSep {} ";" { toks := [⟨TokenType.Integer, "5", 1, 1⟩], out := [] } =
      Except.error (errorHere ("separator '" ++ ";" ++ "' expected")
        { toks := [⟨TokenType.Integer, "5", 1, 1⟩], out := [] })) ∧
    ((expectIdentifier {} { toks := [⟨TokenType.Integer, "5", 1, 1⟩], out := [] } >>=
        Except.ok) =
      expectIdentifier {} { toks := [⟨TokenType.Integer, "5", 1, 1⟩], out := [] }) := by
  have T := claim_C8_amended {} ";" "x"
    { toks := [⟨TokenType.Integer, "5", 1, 1⟩], out := [] } Except.ok
  exact ⟨T.1, T.2.1 (by decide), T.2.2.1 (by decide), T.2.2.2.1 (by decide),
    T.2.2.2.2.1 (by decide), T.2.2.2.2.2 (by decide)⟩

/-- C9: the `<Primary> -> true | false` alternative is never selected on a
token stream produced by this scanner.  The lexemes `true`/`false` arrive
only as Identifier tokens (they are not in the scanner's keyword set) or as
String tokens (from a quoted literal); `parsePrimary` dispatches an
Identifier to the `<Identifier> <Primary Prime>` branch — tested before the
true/false branch — and a String token to the string-primary branch (or the
`primary expected` error when the policy forbids it). -/
theorem claim_C9 (s : String) (t : Token) (h : t ∈ lexAll s)
    (hlex : t.lexeme = "true" ∨ t.lexeme = "false")
    (cfg : TraceConfig) (pol : ParserPolicy) (n : Nat) (st : PState)
    (ts : List Token) (htoks : st.toks = t :: ts) :
    (t.type = TokenType.Identifier ∧
      parseNT cfg pol (n + 1) NT.primary st = (do
        let st1 := prodSt Rule.Primary
          "<Primary> -> <Identifier> <Primary Prime>" cfg st
        let st2 ← expectIdentifier pol st1
        parseNT cfg pol n NT.primaryPrime st2)) ∨
    (t.type = TokenType.String ∧
      parseNT cfg pol (n + 1) NT.primary st =
        (if pol.allowStringPrimary = true then
          Except.ok (padvance (echoTok pol
            (prodSt Rule.Primary "<Primary> -> <String>" cfg st)))
        else Except.error (errorHere "primary expected" st))) := by
  have hcur : cur st = t := by simp [cur, htoks]
  rcases shape_truefalse (lexAll_shape h) hlex with hty | hty
  · have hty' : t.type = TokenType.Identifier := hty
    left
    refine ⟨hty', ?_⟩
    rw [parseNT_primary_eq]
    simp only [hcur]
    simp [hty']
  · have hty' : t.type = TokenType.String := hty
    right
    refine ⟨hty', ?_⟩
    rw [parseNT_primary_eq]
    simp only [hcur]
    simp [hty', isSepT]
    rfl

/-- C9 witness: the Identifier token from the input `true`. -/
theorem claim_C9_witness :
    ((Token.mk TokenType.Identifier "true" 1 4).type = TokenType.Identifier ∧
      parseNT {} {} 4 NT.primary
        { toks := [⟨TokenType.Identifier, "true", 1, 4⟩, ⟨TokenType.EndOfFile, "", 1, 4⟩],
          out := [] } = (do
        let st1 := prodSt Rule.Primary
          "<Primary> -> <Identifier> <Primary Prime>" {}
          { toks := [⟨TokenType.Identifier, "true", 1, 4⟩, ⟨TokenType.EndOfFile, "", 1, 4⟩],
            out := [] }
        let st2 ← expectIdentifier {} st1
        parseNT {} {} 3 NT.primaryPrime st2)) ∨
    ((Token.mk TokenType.Identifier "true" 1 4).type = TokenType.String ∧
      parseNT {} {} 4 NT.primary
        { toks := [⟨TokenType.Identifier, "true", 1, 4⟩, ⟨TokenType.EndOfFile, "", 1, 4⟩],
          out := [] } =
        (if ParserPolicy.allowStringPrimary {} = true then
          Except.ok (padvance (echoTok {}
            (prodSt Rule.Primary "<Primary> -> <String>" {}
              { toks := [⟨TokenType.Identifier, "true", 1, 4⟩,
                         ⟨TokenType.EndOfFile, "", 1, 4⟩], out := [] })))
        else Except.error (errorHere "primary expected"
          { toks := [⟨TokenType.Identifier, "true", 1, 4⟩,
                     ⟨TokenType.EndOfFile, "", 1, 4⟩], out := [] }))) :=
  claim_C9 "true" ⟨TokenType.Identifier, "true", 1, 4⟩ (by decide)
    (Or.inl rfl) {} {} 3 _ [⟨TokenType.EndOfFile, "", 1, 4⟩] rfl

/-- C10: with the lenient-keywords policy disabled, a token with lexeme
`boolean` at a qualifier position always causes the
`qualifier (integer|boolean|real) expected` syntax error: the scanner's
keyword set does not contain `boolean`, so the token is never
Keyword-typed, and strict matching requires a Keyword-typed token. -/
theorem claim_C10 (s : String) (t : Token) (h : t ∈ lexAll s)
    (hlex : t.lexeme = "boolean") (cfg : TraceConfig) (pol : ParserPolicy)
    (hstrict : pol.lenientKeywords = false) (st : PState) (ts : List Token)
    (htoks : st.toks = t :: ts) :
    parseQualifier cfg pol st =
      Except.error (errorHere "qualifier (integer|boolean|real) expected" st) := by
  have hcur : cur st = t := by simp [cur, htoks]
  have hnk : t.type ≠ TokenType.Keyword := by
    intro hk
    have hks := lexAll_keyword_sound h hk
    rw [hlex] at hks
    exact absurd hks (by decide)
  have h1 : isKwP pol "integer" t = false := by simp [isKwP, hstrict, hlex]
  have h2 : isKwP pol "boolean" t = false := by simp [isKwP, hstrict, hnk]
  have h3 : isKwP pol "real" t = false := by simp [isKwP, hstrict, hlex]
  unfold parseQualifier
  rw [hcur]
  simp [h1, h2, h3]

/-- C10 witness: the Identifier token from the input `boolean` under the
strict-keyword policy. -/
theorem claim_C10_witness :
    parseQualifier {} { lenientKeywords := false }
      { toks := [⟨TokenType.Identifier, "boolean", 1, 7⟩, ⟨TokenType.EndOfFile, "", 1, 7⟩],
        out := [] } =
    Except.error (errorHere "qualifier (integer|boolean|real) expected"
      { toks := [⟨TokenType.Identifier, "boolean", 1, 7⟩, ⟨TokenType.EndOfFile, "", 1, 7⟩],
        out := [] }) :=
  claim_C10 "boolean" ⟨TokenType.Identifier, "boolean", 1, 7⟩ (by decide) rfl
    {} { lenientKeywords := false } rfl _ [⟨TokenType.EndOfFile, "", 1, 7⟩] rfl

/-- C3 amended-claim witness. -/
theorem claim_C3_amended_witness :
    parseNT {} {} 10 NT.statement
      { toks := [⟨TokenType.Identifier, "if", 1, 2⟩, ⟨TokenType.Operator, "=", 1, 4⟩,
                 ⟨TokenType.Integer, "3", 1, 6⟩, ⟨TokenType.Separator, ";", 1, 7⟩,
                 ⟨TokenType.EndOfFile, "", 1, 7⟩], out := [] } =
    parseNT {} {} 9 NT.assign
      (prodSt Rule.Statement "<Statement> -> <Assign>" {}
        { toks := [⟨TokenType.Identifier, "if", 1, 2⟩, ⟨TokenType.Operator, "=", 1, 4⟩,
                   ⟨TokenType.Integer, "3", 1, 6⟩, ⟨TokenType.Separator, ";", 1, 7⟩,
                   ⟨TokenType.EndOfFile, "", 1, 7⟩], out := [] }) :=
  claim_C3_amended {} {} rfl 9 _ ⟨TokenType.Identifier, "if", 1, 2⟩
    [⟨TokenType.Operator, "=", 1, 4⟩, ⟨TokenType.Integer, "3", 1, 6⟩,
     ⟨TokenType.Separator, ";", 1, 7⟩, ⟨TokenType.EndOfFile, "", 1, 7⟩]
    rfl (by decide) (by decide)

end Rat25F
